import Mathlib

/-!
# libgbinder: the service manager (`src/gbinder_servicemanager.c`)

A shallow embedding of the service manager registry (one cached instance per
device, with the dispose protocol), of the asynchronous `get_service`
request and of the registration watch / notification machinery, followed by
theorems about them.

Pointers are natural numbers indexing a heap of objects, `NULL` is `none`,
C strings are `String`, and calls into collaborators that only have an effect
(`unwatch`, callbacks, releases) are recorded in a trace.
-/

namespace GBinder

/-! ## GLib hash tables with string keys -/

/-- A `GHashTable` created with `g_str_hash` / `g_str_equal`: a finite map from
strings to values, kept as an association list. -/
abbrev GHashTable (α : Type) := List (String × α)

/-- The value stored under `key`, if any (`g_hash_table_lookup`). -/
def g_hash_table_lookup {α : Type} : GHashTable α → String → Option α
  | [], _ => none
  | (k, v) :: rest, key => if k = key then some v else g_hash_table_lookup rest key

/-- Drops the binding of `key` (`g_hash_table_remove`). -/
def g_hash_table_remove {α : Type} (t : GHashTable α) (key : String) : GHashTable α :=
  t.filter (fun e => decide (e.1 ≠ key))

/-- Binds `key` to `value`, replacing a previous binding of `key`
(`g_hash_table_replace`). -/
def g_hash_table_replace {α : Type} (t : GHashTable α) (key : String) (value : α) :
    GHashTable α :=
  g_hash_table_remove t key ++ [(key, value)]

/-- Number of bindings (`g_hash_table_size`). -/
def g_hash_table_size {α : Type} (t : GHashTable α) : Nat := t.length

/-! ## The registry: `gbinder_servicemanager_new_with_type` and dispose -/

/-- Outcome of the variant's `check_name`. -/
inductive GBINDER_SERVICEMANAGER_NAME_CHECK where
  | NAME_OK
  | NAME_NORMALIZE
  | NAME_INVALID
deriving DecidableEq, Repr

/-- The per-variant constants and capabilities of `GBinderServiceManagerClass`
that the functions of this file use. The mutable `table` of the class lives in
`World`. -/
structure GBinderServiceManagerClass where
  /-- Field `default_device`. -/
  default_device : String
  /-- The transport binding for a device: `gbinder_ipc_new (dev, rpc_protocol)` followed by
  `gbinder_ipc_get_remote_object (ipc, handle)`; `none` when either of them returns `NULL`,
  otherwise the device name that `gbinder_remote_object_dev` reports for the object. -/
  remote_object_dev : String → Option String
  /-- Virtual `check_name`; the name may be `NULL`. -/
  check_name : Option String → GBINDER_SERVICEMANAGER_NAME_CHECK
  /-- Virtual `normalize_name`. -/
  normalize_name : Option String → Option String
  /-- Virtual `watch`: whether the transport accepted the watch. -/
  watch : String → Bool
  /-- Virtual `get_service`: the remote object (`none` is `NULL`) and the status. -/
  get_service : String → Option Nat × Int

/-- A `GQuark`. GLib gives every interned string a non-zero integer of its own and
keeps 0 for "no string"; a quark is represented by the string it stands for and the
quark 0 by `none`. -/
abbrev GQuark := Option String

/-- A handler connected to the signal `servicemanager-registration` of an instance:
its id, the detail it was connected with, and the closure (callback and user data). -/
structure Handler where
  sequential_number : Nat
  detail : GQuark
  func : Nat
  data : Nat
deriving DecidableEq, Repr

/-- The part of a `GBinderServiceManager` object the registry works with: the
`GObject` reference count (a `guint`), the `dev` field, whether the object has been
finalized (and its memory released), and the signal handlers connected to the object,
none on a new object. -/
structure GBinderServiceManager where
  ref_count : Nat
  dev : String
  finalized : Bool
  handlers : List Handler := []
deriving DecidableEq, Repr

/-- The class registry `klass->table` (`none` is `NULL`) and the objects
allocated so far; an object pointer is its position in `heap`. -/
structure World where
  table : Option (GHashTable Nat)
  heap : List GBinderServiceManager
deriving DecidableEq, Repr

/-- Applies `f` to the object at `p`. -/
def heap_update (heap : List GBinderServiceManager) (p : Nat)
    (f : GBinderServiceManager → GBinderServiceManager) : List GBinderServiceManager :=
  match heap[p]? with
  | some o => heap.set p (f o)
  | none => heap

/-- Adds one reference (`gbinder_servicemanager_ref`, i.e. `g_object_ref`). -/
def gbinder_servicemanager_ref (heap : List GBinderServiceManager) (p : Nat) :
    List GBinderServiceManager :=
  heap_update heap p (fun o => { o with ref_count := o.ref_count + 1 })

/-- The critical section of `gbinder_servicemanager_new_with_type` together with
what precedes it. `type` is `none` when `gbinder_servicemanager_class_ref`
yields no class. Returns the instance pointer (`none` is `NULL`). -/
def gbinder_servicemanager_new_with_type (type : Option GBinderServiceManagerClass)
    (dev : Option String) (w : World) : Option Nat × World :=
  match type with
  | none => (none, w)
  | some klass =>
    let dev := dev.getD klass.default_device
    match klass.remote_object_dev dev with
    | none => (none, w)
    | some object_dev =>
      let self :=
        match w.table with
        | some t => g_hash_table_lookup t dev
        | none => none
      match self with
      | some p => (some p, { w with heap := gbinder_servicemanager_ref w.heap p })
      | none =>
        let p := w.heap.length
        let obj : GBinderServiceManager :=
          { ref_count := 1, dev := object_dev, finalized := false }
        let t := w.table.getD []
        (some p, { table := some (g_hash_table_replace t dev p), heap := w.heap ++ [obj] })

/-- What `g_atomic_int_get (&object->ref_count)` returns: the 32-bit counter read as a
signed `gint`. -/
def g_atomic_int_get (ref_count : Nat) : Int :=
  if ref_count % 2 ^ 32 < 2 ^ 31 then ((ref_count % 2 ^ 32 : Nat) : Int)
  else ((ref_count % 2 ^ 32 : Nat) : Int) - 2 ^ 32

/-- The critical section of `gbinder_servicemanager_dispose` for the object at `p`, from
the lock to the unlock. -/
def gbinder_servicemanager_dispose_locked (w : World) (p : Nat) : World :=
  match w.heap[p]?, w.table with
  | some self, some t =>
    if g_atomic_int_get self.ref_count ≤ 1 then
      let t1 := g_hash_table_remove t self.dev
      if g_hash_table_size t1 = 0 then { w with table := none }
      else { w with table := some t1 }
    else w
  | _, _ => w

/-- The `dispose` of the parent class `GObject`, which GLib implements by destroying the
signal handlers connected to the object (`g_signal_handlers_destroy`). -/
def g_object_real_dispose (heap : List GBinderServiceManager) (p : Nat) :
    List GBinderServiceManager :=
  heap_update heap p (fun o => { o with handlers := [] })

/-- The function `gbinder_servicemanager_dispose` for the object at `p`: the critical
section, then the unconditional `G_OBJECT_CLASS (PARENT_CLASS)->dispose (object)`. -/
def gbinder_servicemanager_dispose (w : World) (p : Nat) : World :=
  let w1 := gbinder_servicemanager_dispose_locked w p
  { w1 with heap := g_object_real_dispose w1.heap p }

/-- Lookup in the class table, `none` when the table is absent. -/
def World.lookup (w : World) (dev : String) : Option Nat :=
  match w.table with
  | some t => g_hash_table_lookup t dev
  | none => none

/-- Reference count of the object at `p`. -/
def World.ref_count (w : World) (p : Nat) : Option Nat := (w.heap[p]?).map (·.ref_count)

/-! ## Releasing a reference

`gbinder_servicemanager_unref` is `g_object_unref`. GLib's `g_object_unref`
works in three steps, the ones the comment in `gbinder_servicemanager_dispose`
relies on: (1) if the count is above one it is decremented and nothing else
happens, otherwise the call goes on to (2) run the class `dispose` and then
(3) rechecks the count: above one it is just decremented (the object was
re-referenced), otherwise it is decremented and, when it was exactly one, the
object is finalized. -/

/-- Step (1) of `g_object_unref`: decrement when the count is above one. The
flag tells whether the caller goes on to dispose. -/
def g_object_unref_begin (heap : List GBinderServiceManager) (p : Nat) :
    List GBinderServiceManager × Bool :=
  match heap[p]? with
  | some o =>
    if 1 < o.ref_count then (heap.set p { o with ref_count := o.ref_count - 1 }, false)
    else (heap, true)
  | none => (heap, false)

/-- Step (3) of `g_object_unref`, after dispose returned: the recheck, the last
decrement and `gbinder_servicemanager_finalize` when the count was one. -/
def g_object_unref_end (heap : List GBinderServiceManager) (p : Nat) :
    List GBinderServiceManager :=
  match heap[p]? with
  | some o =>
    if 1 < o.ref_count then heap.set p { o with ref_count := o.ref_count - 1 }
    else if o.ref_count = 1 then heap.set p { o with ref_count := 0, finalized := true }
    else heap.set p { o with ref_count := o.ref_count - 1 }
  | none => heap

/-- A whole `gbinder_servicemanager_unref` call running without interference. -/
def gbinder_servicemanager_unref (w : World) (p : Nat) : World :=
  let r := g_object_unref_begin w.heap p
  if r.2 then
    let w1 := gbinder_servicemanager_dispose { w with heap := r.1 } p
    { w1 with heap := g_object_unref_end w1.heap p }
  else { w with heap := r.1 }

/-- Whether the object at `p` has been finalized. -/
def World.finalized (w : World) (p : Nat) : Bool :=
  match w.heap[p]? with
  | some o => o.finalized
  | none => false

/-- One atomic step of some thread. -/
inductive Action where
  /-- A whole `gbinder_servicemanager_new_with_type` critical section. -/
  | acquire (dev : Option String)
  /-- Step (1) of `gbinder_servicemanager_unref` by a holder of a reference to `p`. -/
  | release (p : Nat)
  /-- The call of `gbinder_servicemanager_dispose` of a release of `p`: its critical
  section, followed by the chain-up, which only touches the handlers of `p`. -/
  | dispose (p : Nat)
  /-- Step (3) of a release of `p` whose dispose has returned. -/
  | last_unref (p : Nat)
deriving DecidableEq, Repr

/-- The shared world and where every caller stands. -/
structure Sys where
  world : World
  /-- References handed out by acquire and not yet released. -/
  held : List Nat
  /-- Releases that saw the count at one and are about to run dispose. -/
  disposing : List Nat
  /-- Releases whose dispose has returned and whose last decrement is due. -/
  finishing : List Nat
  /-- What the most recent acquire returned. -/
  returned : Option Nat
deriving DecidableEq, Repr

/-- The system before any call: no table, no object. -/
def Sys.init : Sys :=
  { world := { table := none, heap := [] }, held := [], disposing := [], finishing := [],
    returned := none }

/-- One step; `none` when the action is not enabled. -/
def Sys.step (klass : GBinderServiceManagerClass) (s : Sys) : Action → Option Sys
  | .acquire dev =>
    let r := gbinder_servicemanager_new_with_type (some klass) dev s.world
    match r.1 with
    | some p => some { s with world := r.2, held := p :: s.held, returned := some p }
    | none => some { s with world := r.2, returned := none }
  | .release p =>
    if p ∈ s.held then
      let r := g_object_unref_begin s.world.heap p
      some { s with
        world := { s.world with heap := r.1 }
        held := s.held.erase p
        disposing := if r.2 then p :: s.disposing else s.disposing }
    else none
  | .dispose p =>
    if p ∈ s.disposing then
      some { s with
        world := gbinder_servicemanager_dispose s.world p
        disposing := s.disposing.erase p
        finishing := p :: s.finishing }
    else none
  | .last_unref p =>
    if p ∈ s.finishing then
      some { s with
        world := { s.world with heap := g_object_unref_end s.world.heap p }
        finishing := s.finishing.erase p }
    else none

/-- Runs a schedule from `s`; `none` when some action was not enabled. -/
def Sys.run (klass : GBinderServiceManagerClass) : Sys → List Action → Option Sys
  | s, [] => some s
  | s, a :: rest =>
    match s.step klass a with
    | some s1 => Sys.run klass s1 rest
    | none => none

/-- A variant that accepts every name unchanged, always obtains its watch and whose
transport binds every device under the name asked for. -/
def plain_class : GBinderServiceManagerClass :=
  { default_device := "/dev/binder"
    remote_object_dev := fun d => some d
    check_name := fun _ => .NAME_OK
    normalize_name := fun n => n
    watch := fun _ => true
    get_service := fun _ => (some 5, 0) }

/-- A schedule of two callers: the first acquires "/dev/x" and starts releasing it; the
second acquires the same device before the first runs dispose, and releases it before
the first performs its last decrement. -/
def revive_then_release : List Action :=
  [.acquire (some "/dev/x"), .release 0, .acquire (some "/dev/x"), .dispose 0, .release 0,
   .last_unref 0]

/-! ## GLib: MD5 checksums and quarks -/

/-- The UTF-8 bytes of a character. -/
def utf8_bytes (c : Char) : List Nat :=
  let n := c.toNat
  if n < 0x80 then [n]
  else if n < 0x800 then [0xC0 + n / 64, 0x80 + n % 64]
  else if n < 0x10000 then [0xE0 + n / 4096, 0x80 + (n / 64) % 64, 0x80 + n % 64]
  else [0xF0 + n / 262144, 0x80 + (n / 4096) % 64, 0x80 + (n / 64) % 64, 0x80 + n % 64]

/-- The bytes of a C string. -/
def c_bytes (s : String) : List Nat := s.toList.flatMap utf8_bytes

/-- The MD5 round constants of RFC 1321. -/
def md5_K : List Nat := [
  0xd76aa478, 0xe8c7b756, 0x242070db, 0xc1bdceee,
  0xf57c0faf, 0x4787c62a, 0xa8304613, 0xfd469501,
  0x698098d8, 0x8b44f7af, 0xffff5bb1, 0x895cd7be,
  0x6b901122, 0xfd987193, 0xa679438e, 0x49b40821,
  0xf61e2562, 0xc040b340, 0x265e5a51, 0xe9b6c7aa,
  0xd62f105d, 0x02441453, 0xd8a1e681, 0xe7d3fbc8,
  0x21e1cde6, 0xc33707d6, 0xf4d50d87, 0x455a14ed,
  0xa9e3e905, 0xfcefa3f8, 0x676f02d9, 0x8d2a4c8a,
  0xfffa3942, 0x8771f681, 0x6d9d6122, 0xfde5380c,
  0xa4beea44, 0x4bdecfa9, 0xf6bb4b60, 0xbebfbc70,
  0x289b7ec6, 0xeaa127fa, 0xd4ef3085, 0x04881d05,
  0xd9d4d039, 0xe6db99e5, 0x1fa27cf8, 0xc4ac5665,
  0xf4292244, 0x432aff97, 0xab9423a7, 0xfc93a039,
  0x655b59c3, 0x8f0ccc92, 0xffeff47d, 0x85845dd1,
  0x6fa87e4f, 0xfe2ce6e0, 0xa3014314, 0x4e0811a1,
  0xf7537e82, 0xbd3af235, 0x2ad7d2bb, 0xeb86d391]

/-- The MD5 per-round rotation amounts. -/
def md5_S : List Nat := [
  7, 12, 17, 22, 7, 12, 17, 22, 7, 12, 17, 22, 7, 12, 17, 22,
  5, 9, 14, 20, 5, 9, 14, 20, 5, 9, 14, 20, 5, 9, 14, 20,
  4, 11, 16, 23, 4, 11, 16, 23, 4, 11, 16, 23, 4, 11, 16, 23,
  6, 10, 15, 21, 6, 10, 15, 21, 6, 10, 15, 21, 6, 10, 15, 21]

/-- Truncation to 32 bits. -/
def w32 (n : Nat) : Nat := n % 2 ^ 32

/-- Left rotation of a 32-bit word. -/
def rotl32 (x c : Nat) : Nat := w32 (x <<< c) ||| (x >>> (32 - c))

/-- Complement of a 32-bit word. -/
def not32 (x : Nat) : Nat := 2 ^ 32 - 1 - x

/-- MD5 padding: a one bit, zeros up to 56 mod 64 bytes, the bit length on 8 bytes. -/
def md5_pad (msg : List Nat) : List Nat :=
  let len := msg.length
  let zeros := (119 - len % 64) % 64
  msg ++ [0x80] ++ List.replicate zeros 0 ++
    (List.range 8).map (fun i => (len * 8 / 2 ^ (8 * i)) % 256)

/-- The `j`-th little-endian 32-bit word of a block. -/
def le_word (bs : List Nat) (j : Nat) : Nat :=
  bs.getD (4 * j) 0 + bs.getD (4 * j + 1) 0 * 2 ^ 8 +
    bs.getD (4 * j + 2) 0 * 2 ^ 16 + bs.getD (4 * j + 3) 0 * 2 ^ 24

/-- The four chaining words of MD5. -/
structure Md5State where
  a : Nat
  b : Nat
  c : Nat
  d : Nat
deriving DecidableEq, Repr

/-- Operation `i` of the 64 operations on a block. -/
def md5_step (m : List Nat) (st : Md5State) (i : Nat) : Md5State :=
  let f :=
    if i < 16 then (st.b &&& st.c) ||| (not32 st.b &&& st.d)
    else if i < 32 then (st.d &&& st.b) ||| (not32 st.d &&& st.c)
    else if i < 48 then st.b ^^^ st.c ^^^ st.d
    else st.c ^^^ (st.b ||| not32 st.d)
  let g :=
    if i < 16 then i
    else if i < 32 then (5 * i + 1) % 16
    else if i < 48 then (3 * i + 5) % 16
    else (7 * i) % 16
  let f2 := w32 (f + st.a + md5_K.getD i 0 + m.getD g 0)
  { a := st.d, d := st.c, c := st.b, b := w32 (st.b + rotl32 f2 (md5_S.getD i 0)) }

/-- Processes one 64-byte block. -/
def md5_block (st : Md5State) (block : List Nat) : Md5State :=
  let m := (List.range 16).map (le_word block)
  let r := (List.range 64).foldl (md5_step m) st
  { a := w32 (st.a + r.a), b := w32 (st.b + r.b), c := w32 (st.c + r.c), d := w32 (st.d + r.d) }

/-- Processes `n` successive blocks. -/
def md5_blocks : Nat → Md5State → List Nat → Md5State
  | 0, st, _ => st
  | n + 1, st, bs => md5_blocks n (md5_block st (bs.take 64)) (bs.drop 64)

/-- The initial chaining value. -/
def md5_init : Md5State :=
  { a := 0x67452301, b := 0xefcdab89, c := 0x98badcfe, d := 0x10325476 }

/-- A lowercase hexadecimal digit. -/
def hex_digit (n : Nat) : Char := "0123456789abcdef".toList.getD n '0'

/-- Two hexadecimal digits of a byte. -/
def hex_byte (b : Nat) : List Char := [hex_digit (b / 16), hex_digit (b % 16)]

/-- The four bytes of a word, least significant first. -/
def le_bytes (w : Nat) : List Nat := (List.range 4).map (fun i => (w / 2 ^ (8 * i)) % 256)

/-- The call `g_compute_checksum_for_string (G_CHECKSUM_MD5, s, -1)`: the MD5 digest of
the string as 32 lowercase hexadecimal digits. -/
def g_compute_checksum_for_string_md5 (s : String) : String :=
  let bs := md5_pad (c_bytes s)
  let st := md5_blocks (bs.length / 64) md5_init bs
  String.mk ((le_bytes st.a ++ le_bytes st.b ++ le_bytes st.c ++ le_bytes st.d).flatMap hex_byte)


/-- The quark of a string (`g_quark_from_string`), never 0. -/
def g_quark_from_string (s : String) : GQuark := some s

/-! ## Watches and registration handlers -/

/-- The record `GBinderServiceManagerWatch`. -/
structure GBinderServiceManagerWatch where
  name : String
  detail : String
  quark : GQuark
  watched : Bool
deriving DecidableEq, Repr

/-- The constructor `gbinder_servicemanager_watch_new`. -/
def gbinder_servicemanager_watch_new (name : String) : GBinderServiceManagerWatch :=
  let detail := g_compute_checksum_for_string_md5 name
  { name := name, detail := detail, quark := g_quark_from_string detail, watched := false }

/-- An observable call made by the service manager. -/
inductive Call where
  /-- The variant's `watch (self, name)` and what it returned. -/
  | watch (name : String) (result : Bool)
  /-- The variant's `unwatch (self, name)`. -/
  | unwatch (name : String)
  /-- The callback of the handler `id` invoked with the service name `name`. -/
  | handler (id : Nat) (func : Nat) (data : Nat) (name : Option String)
deriving DecidableEq, Repr

/-- What the notification code sees of an instance: the watches of `priv->watch_table`
(keyed by the `name` field of each watch; the order of the list does not matter, the order
of iteration is a `GHashTableIter`), the connected signal handlers in connection order,
GLib's counter of handler ids, and the trace of calls so far. -/
structure Instance where
  watch_table : List GBinderServiceManagerWatch
  handlers : List Handler
  g_handler_sequential_number : Nat
  calls : List Call
deriving DecidableEq, Repr

/-- The instance as `gbinder_servicemanager_init` leaves it, in a process whose handler
counter stands at `seq` (GLib starts it at 1). -/
def gbinder_servicemanager_init (seq : Nat) : Instance :=
  { watch_table := [], handlers := [], g_handler_sequential_number := seq, calls := [] }

/-- The watch stored under `name` (`g_hash_table_lookup (priv->watch_table, name)`). -/
def watch_table_lookup : List GBinderServiceManagerWatch → String →
    Option GBinderServiceManagerWatch
  | [], _ => none
  | w :: rest, name => if w.name = name then some w else watch_table_lookup rest name

/-- The assignment `watch->watched = value` on the watch stored under `name`. -/
def watch_table_set_watched : List GBinderServiceManagerWatch → String → Bool →
    List GBinderServiceManagerWatch
  | [], _, _ => []
  | w :: rest, name, value =>
    if w.name = name then { w with watched := value } :: rest
    else w :: watch_table_set_watched rest name value

/-- The `switch` on `check_name` found in both `gbinder_servicemanager_service_registered`
and `gbinder_servicemanager_add_registration_handler`: the name to work with, `none`
(`NULL`) when the name is not usable. -/
def normalized_name (klass : GBinderServiceManagerClass) (name : Option String) :
    Option String :=
  match klass.check_name name with
  | .NAME_OK => name
  | .NAME_NORMALIZE => klass.normalize_name name
  | .NAME_INVALID => none

/-- GLib's `g_signal_connect_closure_by_id` with `after = FALSE`: the handler gets the
next id and is appended to the handlers of the instance; the id is returned. The counter
is a `gulong` that GLib never lets wrap around, so it is an unbounded natural number. -/
def g_signal_connect_closure_by_id (self : Instance) (detail : GQuark) (func data : Nat) :
    Nat × Instance :=
  (self.g_handler_sequential_number,
   { self with
     handlers := self.handlers ++
       [{ sequential_number := self.g_handler_sequential_number, detail := detail,
          func := func, data := data }]
     g_handler_sequential_number := self.g_handler_sequential_number + 1 })

/-- GLib's `g_signal_handler_disconnect`: the handler with this id is dropped. -/
def g_signal_handler_disconnect (handlers : List Handler) (id : Nat) : List Handler :=
  handlers.filter (fun h => decide (h.sequential_number ≠ id))

/-- GLib's `g_signal_has_handler_pending` for the registration signal (which has no class
handler): whether some handler is connected with exactly this detail. -/
def g_signal_has_handler_pending (handlers : List Handler) (detail : GQuark) : Bool :=
  handlers.any (fun h => decide (h.detail = detail))

/-- The calls GLib's `g_signal_emit` makes for a detailed signal: every handler
connected without detail or with the emitted detail is invoked, in connection order.
Callbacks are taken not to connect or disconnect handlers during the emission. -/
def g_signal_emit (handlers : List Handler) (detail : GQuark) (name : Option String) :
    List Call :=
  (handlers.filter (fun h => decide (h.detail = none) || decide (h.detail = detail))).map
    (fun h => Call.handler h.sequential_number h.func h.data name)

/-- The detail `gbinder_servicemanager_service_registered` emits the signal with: the quark
of the watch stored under the normalized name, 0 when the name is not usable or no watch
is stored under it. -/
def registered_detail (klass : GBinderServiceManagerClass) (self : Instance)
    (name : Option String) : GQuark :=
  let watch :=
    match normalized_name klass name with
    | some normalized => watch_table_lookup self.watch_table normalized
    | none => none
  match watch with
  | some w => w.quark
  | none => none

/-- The function `gbinder_servicemanager_service_registered`: the signal is emitted with
`registered_detail` and the name as received. -/
def gbinder_servicemanager_service_registered (klass : GBinderServiceManagerClass)
    (self : Instance) (name : Option String) : Instance :=
  { self with
    calls := self.calls ++ g_signal_emit self.handlers (registered_detail klass self name) name }

/-- The function `gbinder_servicemanager_add_registration_handler`; `func` is `none`
for a `NULL` callback. Returns the handler id, 0 on failure. -/
def gbinder_servicemanager_add_registration_handler (klass : GBinderServiceManagerClass)
    (self : Instance) (name : Option String) (func : Option Nat) (data : Nat) :
    Nat × Instance :=
  match func with
  | none => (0, self)
  | some func =>
    match normalized_name klass name with
    | none => (0, self)
    | some name =>
      let found := watch_table_lookup self.watch_table name
      let watch := found.getD (gbinder_servicemanager_watch_new name)
      let table := if found.isSome then self.watch_table else self.watch_table ++ [watch]
      let self1 : Instance :=
        if watch.watched then { self with watch_table := table }
        else
          { self with
            watch_table := watch_table_set_watched table name (klass.watch name)
            calls := self.calls ++ [Call.watch name (klass.watch name)] }
      g_signal_connect_closure_by_id self1 watch.quark func data

/-- The order in which `g_hash_table_iter_init` / `g_hash_table_iter_next` yield the
entries of a watch table. GLib walks the slots of the hash table, so the order is not the
order of insertion; it is left open here: any function that rearranges the entries. -/
structure GHashTableIter where
  order : List GBinderServiceManagerWatch → List GBinderServiceManagerWatch
  perm : ∀ t, (order t).Perm t

/-- The loop of `gbinder_servicemanager_remove_handler` over the entries in the order the
iterator yields them: the first watched entry without a pending handler, at which the
loop breaks, if there is one. -/
def remove_handler_loop (handlers : List Handler) :
    List GBinderServiceManagerWatch → Option GBinderServiceManagerWatch
  | [] => none
  | w :: rest =>
    if w.watched && !g_signal_has_handler_pending handlers w.quark then some w
    else remove_handler_loop handlers rest

/-- The function `gbinder_servicemanager_remove_handler`. The watch the loop stops at is
the one stored under its name, whose flag is cleared. -/
def gbinder_servicemanager_remove_handler (iter : GHashTableIter) (self : Instance)
    (id : Nat) : Instance :=
  if id = 0 then self
  else
    let handlers := g_signal_handler_disconnect self.handlers id
    match remove_handler_loop handlers (iter.order self.watch_table) with
    | some watch =>
      { self with
        handlers := handlers
        watch_table := watch_table_set_watched self.watch_table watch.name false
        calls := self.calls ++ [Call.unwatch watch.name] }
    | none => { self with handlers := handlers }

/-- The iteration that yields the entries in the order of the list. -/
def list_order : GHashTableIter :=
  { order := fun t => t, perm := fun t => List.Perm.refl t }

/-- The iteration that yields the entries in the reverse order of the list. -/
def reverse_order : GHashTableIter :=
  { order := fun t => t.reverse, perm := fun t => List.reverse_perm t }

/-- The states an instance can be in: it starts as `gbinder_servicemanager_init` leaves
it and then handlers are registered and removed (the table being iterated in any order)
and registrations are notified, while other objects of the process may use up handler
ids. -/
inductive Reachable (klass : GBinderServiceManagerClass) : Instance → Prop where
  | init (seq : Nat) (h : 0 < seq) : Reachable klass (gbinder_servicemanager_init seq)
  | add (s : Instance) (name : Option String) (func : Option Nat) (data : Nat) :
      Reachable klass s →
      Reachable klass (gbinder_servicemanager_add_registration_handler klass s name func data).2
  | remove (s : Instance) (iter : GHashTableIter) (id : Nat) :
      Reachable klass s → Reachable klass (gbinder_servicemanager_remove_handler iter s id)
  | notify (s : Instance) (name : Option String) :
      Reachable klass s → Reachable klass (gbinder_servicemanager_service_registered klass s name)
  | other_ids (s : Instance) (n : Nat) :
      Reachable klass s →
      Reachable klass { s with g_handler_sequential_number := s.g_handler_sequential_number + n }

/-- The calls made between two states of an instance. -/
def new_calls (before after : Instance) : List Call := after.calls.drop before.calls.length

/-- The invocations of the handler `id` among some calls, in order. -/
def handler_invocations (id : Nat) (calls : List Call) : List Call :=
  calls.filter (fun c =>
    match c with
    | Call.handler i _ _ _ => decide (i = id)
    | _ => false)

/-- The flag `watched` of the watch stored under `name`, `none` without such a watch. -/
def watched_flag (self : Instance) (name : String) : Option Bool :=
  (watch_table_lookup self.watch_table name).map (·.watched)

/-- A variant that rejects the absent and the empty name and accepts every other name
unchanged. -/
def strict_class : GBinderServiceManagerClass :=
  { default_device := "/dev/hwbinder"
    remote_object_dev := fun d => some d
    check_name := fun n =>
      match n with
      | none => .NAME_INVALID
      | some s => if s = "" then .NAME_INVALID else .NAME_OK
    normalize_name := fun n => n
    watch := fun _ => true
    get_service := fun _ => (some 5, 0) }

/-- The dispatch key a handler registered for the usable name `name` is connected with:
the quark of the watch stored under the name, or of a new watch for it. -/
def entry_quark (self : Instance) (name : String) : GQuark :=
  ((watch_table_lookup self.watch_table name).getD (gbinder_servicemanager_watch_new name)).quark

/-- Every watch of the table carries the quark of the MD5 checksum of its name. -/
def TableOk (t : List GBinderServiceManagerWatch) : Prop :=
  ∀ w ∈ t, w.quark = g_quark_from_string (g_compute_checksum_for_string_md5 w.name)

/-- Facts that hold of every reachable instance: the handler counter is positive and
above every connected id, every handler has a detail, and the table is `TableOk`. -/
structure Inv (s : Instance) : Prop where
  seq_pos : 0 < s.g_handler_sequential_number
  ids_lt : ∀ h ∈ s.handlers, h.sequential_number < s.g_handler_sequential_number
  detail_some : ∀ h ∈ s.handlers, h.detail ≠ none
  table_ok : TableOk s.watch_table

/-- First of two distinct service names with the same MD5 checksum
(`faad49866e9498fc1719f5289e7a0269`). -/
def colliding_name_a : String :=
  "TEXTCOLLBYfGiJUETHQ4hAcKSMd5zYpgqf1YRDhkmxHkhPWptrkoyz28wnI9V0aHeAuaKnak"

/-- Second of two distinct service names with the same MD5 checksum. -/
def colliding_name_b : String :=
  "TEXTCOLLBYfGiJUETHQ4hEcKSMd5zYpgqf1YRDhkmxHkhPWptrkoyz28wnI9V0aHeAuaKnak"

/-- A variant that reads the absent name as the name "*", rejects the empty name and
accepts every other name unchanged. -/
def wildcard_class : GBinderServiceManagerClass :=
  { default_device := "/dev/binder"
    remote_object_dev := fun d => some d
    check_name := fun n =>
      match n with
      | none => .NAME_NORMALIZE
      | some s => if s = "" then .NAME_INVALID else .NAME_OK
    normalize_name := fun n =>
      match n with
      | none => some "*"
      | some s => some s
    watch := fun _ => true
    get_service := fun _ => (some 5, 0) }

/-- Two registrations one after the other: the two ids returned and the instance after
the second. -/
def register_two (klass : GBinderServiceManagerClass) (s : Instance)
    (name1 name2 : Option String) (func1 data1 func2 data2 : Nat) : Nat × Nat × Instance :=
  let r1 := gbinder_servicemanager_add_registration_handler klass s name1 (some func1) data1
  let r2 := gbinder_servicemanager_add_registration_handler klass r1.2 name2 (some func2) data2
  (r1.1, r2.1, r2.2)

/-! ## The asynchronous `get_service` request -/

/-- The record `GBinderServiceManagerGetServiceTxData`; `sm` and `obj` are pointers. -/
structure GBinderServiceManagerGetServiceTxData where
  sm : Nat
  func : Nat
  obj : Option Nat
  status : Int
  name : String
  user_data : Nat
deriving DecidableEq, Repr

/-- A call made while a `get_service` request is processed. -/
inductive TxCall where
  /-- The variant's `get_service (sm, name, &status)`. -/
  | get_service (sm : Nat) (name : String)
  /-- The completion callback `func (sm, obj, status, user_data)`. -/
  | func (func : Nat) (sm : Nat) (obj : Option Nat) (status : Int) (user_data : Nat)
  /-- The call `gbinder_servicemanager_ref (sm)`. -/
  | gbinder_servicemanager_ref (sm : Nat)
  /-- The call `gbinder_servicemanager_unref (sm)`. -/
  | gbinder_servicemanager_unref (sm : Nat)
  /-- The call `gbinder_remote_object_unref (obj)`. -/
  | gbinder_remote_object_unref (obj : Option Nat)
  /-- The call `g_free (name)`. -/
  | g_free (name : String)
  /-- The release of the request record itself. -/
  | g_slice_free
deriving DecidableEq, Repr

/-- The value of `EFAULT`. -/
def EFAULT : Int := 14

/-- The request record `gbinder_servicemanager_get_service` hands to
`gbinder_ipc_transact_custom`, with the calls made to build it; `none` when the callback
or the name is missing and the function returns 0. -/
def gbinder_servicemanager_get_service (self : Nat) (name : Option String)
    (func : Option Nat) (user_data : Nat) :
    Option (GBinderServiceManagerGetServiceTxData × List TxCall) :=
  match func, name with
  | some func, some name =>
    some ({ sm := self, func := func, obj := none, status := -EFAULT, name := name,
            user_data := user_data },
          [TxCall.gbinder_servicemanager_ref self])
  | _, _ => none

/-- The function `gbinder_servicemanager_get_service_tx_exec`. -/
def gbinder_servicemanager_get_service_tx_exec (klass : GBinderServiceManagerClass)
    (data : GBinderServiceManagerGetServiceTxData) :
    GBinderServiceManagerGetServiceTxData × List TxCall :=
  ({ data with obj := (klass.get_service data.name).1,
               status := (klass.get_service data.name).2 },
   [TxCall.get_service data.sm data.name])

/-- The function `gbinder_servicemanager_get_service_tx_done`. -/
def gbinder_servicemanager_get_service_tx_done (data : GBinderServiceManagerGetServiceTxData) :
    List TxCall :=
  [TxCall.func data.func data.sm data.obj data.status data.user_data]

/-- The function `gbinder_servicemanager_get_service_tx_free`. -/
def gbinder_servicemanager_get_service_tx_free (data : GBinderServiceManagerGetServiceTxData) :
    List TxCall :=
  [TxCall.gbinder_servicemanager_unref data.sm, TxCall.gbinder_remote_object_unref data.obj,
   TxCall.g_free data.name, TxCall.g_slice_free]

/-- A request that completes: the transaction framework runs the execution phase, then
the completion phase, then the cleanup. The calls of the three phases, in order. -/
def get_service_tx_completed (klass : GBinderServiceManagerClass)
    (data : GBinderServiceManagerGetServiceTxData) : List TxCall :=
  let r := gbinder_servicemanager_get_service_tx_exec klass data
  r.2 ++ gbinder_servicemanager_get_service_tx_done r.1 ++
    gbinder_servicemanager_get_service_tx_free r.1

/-- Distinct entry names have distinct dispatch keys: two watches of the table with the
same quark have the same name. -/
def KeysDistinct (t : List GBinderServiceManagerWatch) : Prop :=
  ∀ e1 ∈ t, ∀ e2 ∈ t, e1.quark = e2.quark → e1.name = e2.name

/-- The name and the dispatch key of every watch of the table, in order. -/
def watch_keys (t : List GBinderServiceManagerWatch) : List (String × GQuark) :=
  t.map (fun w => (w.name, w.quark))

/-- Further facts that hold of every reachable instance: the table has one watch per
name, handler ids are not zero and no two connected handlers share an id. -/
structure Inv2 (s : Instance) : Prop where
  names_nodup : (s.watch_table.map (fun w => w.name)).Nodup
  ids_nodup : (s.handlers.map (fun h => h.sequential_number)).Nodup
  ids_pos : ∀ h ∈ s.handlers, 0 < h.sequential_number

/-- Every watch marked watched has a handler attached under its key. -/
def Covered (s : Instance) : Prop :=
  ∀ w ∈ s.watch_table, w.watched = true →
    g_signal_has_handler_pending s.handlers w.quark = true

/-- A new instance of the plain variant after a registration for "foo" (handler 1) and
one for "bar" (handler 2). -/
def foo_bar_state : Instance :=
  (gbinder_servicemanager_add_registration_handler plain_class
    (gbinder_servicemanager_add_registration_handler plain_class
      (gbinder_servicemanager_init 1) (some "foo") (some 7) 0).2 (some "bar") (some 8) 0).2

/-- A new instance of the plain variant after one registration for "foo" (handler 1). -/
def foo_state : Instance :=
  (gbinder_servicemanager_add_registration_handler plain_class
    (gbinder_servicemanager_init 1) (some "foo") (some 5) 0).2

/-- A reachable instance without any handler in which one of the two colliding names is
still marked watched: handlers for the two names were registered and then both removed,
the table being iterated in the order `iter`. -/
def orphan_state (iter : GHashTableIter) : Instance :=
  gbinder_servicemanager_remove_handler iter
    (gbinder_servicemanager_remove_handler iter
      (gbinder_servicemanager_add_registration_handler plain_class
        (gbinder_servicemanager_add_registration_handler plain_class
          (gbinder_servicemanager_init 1) (some colliding_name_a) (some 5) 0).2
        (some colliding_name_b) (some 6) 0).2 1) 2

/-- Two removals one after the other: the instance after the first and the instance
after the second. -/
def remove_two (iter : GHashTableIter) (s : Instance) (first second : Nat) :
    Instance × Instance :=
  (gbinder_servicemanager_remove_handler iter s first,
   gbinder_servicemanager_remove_handler iter
     (gbinder_servicemanager_remove_handler iter s first) second)

/-! # Theorems -/

/-! ### Hash table lemmas -/

theorem lookup_remove_self {α : Type} (t : GHashTable α) (key : String) :
    g_hash_table_lookup (g_hash_table_remove t key) key = none := by
  induction t with
  | nil => rfl
  | cons e rest ih =>
    obtain ⟨k, v⟩ := e
    by_cases h : k = key
    · simpa [g_hash_table_remove, h] using ih
    · simpa [g_hash_table_remove, g_hash_table_lookup, h] using ih

theorem lookup_remove_other {α : Type} (t : GHashTable α) (key other : String)
    (hne : other ≠ key) :
    g_hash_table_lookup (g_hash_table_remove t key) other = g_hash_table_lookup t other := by
  induction t with
  | nil => rfl
  | cons e rest ih =>
    obtain ⟨k, v⟩ := e
    by_cases h : k = key
    · have hk : k ≠ other := fun h2 => hne (h2 ▸ h)
      simpa [g_hash_table_remove, g_hash_table_lookup, h, hk, hne.symm] using ih
    · by_cases h2 : k = other
      · subst h2
        simp [g_hash_table_remove, g_hash_table_lookup, hne]
      · simpa [g_hash_table_remove, g_hash_table_lookup, h, h2] using ih

theorem lookup_append_of_none {α : Type} (t u : GHashTable α) (key : String)
    (h : g_hash_table_lookup t key = none) :
    g_hash_table_lookup (t ++ u) key = g_hash_table_lookup u key := by
  induction t with
  | nil => rfl
  | cons e rest ih =>
    obtain ⟨k, v⟩ := e
    by_cases hk : k = key
    · simp [g_hash_table_lookup, hk] at h
    · simp only [g_hash_table_lookup, hk, if_false] at h
      simpa [g_hash_table_lookup, hk] using ih h

theorem lookup_append_of_some {α : Type} (t u : GHashTable α) (key : String) (v : α)
    (h : g_hash_table_lookup t key = some v) :
    g_hash_table_lookup (t ++ u) key = some v := by
  induction t with
  | nil => simp [g_hash_table_lookup] at h
  | cons e rest ih =>
    obtain ⟨k, x⟩ := e
    by_cases hk : k = key
    · simpa [g_hash_table_lookup, hk] using h
    · simp only [g_hash_table_lookup, hk, if_false] at h
      simpa [g_hash_table_lookup, hk] using ih h

theorem lookup_replace_self {α : Type} (t : GHashTable α) (key : String) (v : α) :
    g_hash_table_lookup (g_hash_table_replace t key v) key = some v := by
  unfold g_hash_table_replace
  rw [lookup_append_of_none _ _ _ (lookup_remove_self t key)]
  simp [g_hash_table_lookup]

theorem lookup_replace_other {α : Type} (t : GHashTable α) (key other : String) (v : α)
    (hne : other ≠ key) :
    g_hash_table_lookup (g_hash_table_replace t key v) other = g_hash_table_lookup t other := by
  unfold g_hash_table_replace
  cases h : g_hash_table_lookup t other with
  | none =>
    have h1 : g_hash_table_lookup (g_hash_table_remove t key) other = none := by
      rw [lookup_remove_other t key other hne, h]
    rw [lookup_append_of_none _ _ _ h1]
    simp [g_hash_table_lookup, hne.symm]
  | some x =>
    have h1 : g_hash_table_lookup (g_hash_table_remove t key) other = some x := by
      rw [lookup_remove_other t key other hne, h]
    exact lookup_append_of_some _ _ _ _ h1

/-! ### Heap lemmas -/

theorem getElem?_set_of_some {α : Type} (l : List α) (p : Nat) (o x : α)
    (h : l[p]? = some o) : (l.set p x)[p]? = some x := by
  have hlt : p < l.length := by
    by_contra hc
    rw [List.getElem?_eq_none (by omega)] at h
    cases h
  simp [List.getElem?_set, hlt]

/-! ### The registry -/

/-- C1: acquire. When the transport binding for the device path `D` succeeds: if the
class table holds an instance under `D`, that instance is returned, its reference
count has grown by exactly one, no other object changed and the table is unchanged;
otherwise a new object with reference count 1 is returned and the table, created
if absent, maps `D` to it and maps every other path as before. -/
theorem new_with_type_acquire (klass : GBinderServiceManagerClass) (dev : Option String)
    (w : World) (object_dev : String)
    (hbind : klass.remote_object_dev (dev.getD klass.default_device) = some object_dev) :
    (∀ p, w.lookup (dev.getD klass.default_device) = some p →
      (gbinder_servicemanager_new_with_type (some klass) dev w).1 = some p ∧
      (gbinder_servicemanager_new_with_type (some klass) dev w).2.table = w.table ∧
      (∀ o, w.heap[p]? = some o →
        (gbinder_servicemanager_new_with_type (some klass) dev w).2.heap[p]? =
          some { o with ref_count := o.ref_count + 1 }) ∧
      (∀ q, q ≠ p →
        (gbinder_servicemanager_new_with_type (some klass) dev w).2.heap[q]? = w.heap[q]?)) ∧
    (w.lookup (dev.getD klass.default_device) = none →
      (gbinder_servicemanager_new_with_type (some klass) dev w).1 = some w.heap.length ∧
      (gbinder_servicemanager_new_with_type (some klass) dev w).2.heap =
        w.heap ++ [{ ref_count := 1, dev := object_dev, finalized := false }] ∧
      (gbinder_servicemanager_new_with_type (some klass) dev w).2.table ≠ none ∧
      (gbinder_servicemanager_new_with_type (some klass) dev w).2.lookup
        (dev.getD klass.default_device) = some w.heap.length ∧
      (∀ other, other ≠ dev.getD klass.default_device →
        (gbinder_servicemanager_new_with_type (some klass) dev w).2.lookup other =
          w.lookup other)) := by
  constructor
  · intro p hp
    have hp2 : (match w.table with
        | some t => g_hash_table_lookup t (dev.getD klass.default_device)
        | none => none) = some p := hp
    have hr : gbinder_servicemanager_new_with_type (some klass) dev w =
        (some p, { w with heap := gbinder_servicemanager_ref w.heap p }) := by
      simp only [gbinder_servicemanager_new_with_type, hbind, hp2]
    rw [hr]
    refine ⟨rfl, rfl, ?_, ?_⟩
    · intro o ho
      simp only [gbinder_servicemanager_ref, heap_update, ho]
      exact getElem?_set_of_some _ _ _ _ ho
    · intro q hq
      unfold gbinder_servicemanager_ref heap_update
      cases hh : w.heap[p]? with
      | none => rfl
      | some o => simp [List.getElem?_set, hq.symm]
  · intro hnone
    have hn2 : (match w.table with
        | some t => g_hash_table_lookup t (dev.getD klass.default_device)
        | none => none) = none := hnone
    have hr : gbinder_servicemanager_new_with_type (some klass) dev w =
        (some w.heap.length,
          { table := some (g_hash_table_replace (w.table.getD []) (dev.getD klass.default_device)
              w.heap.length),
            heap := w.heap ++ [{ ref_count := 1, dev := object_dev, finalized := false }] }) := by
      simp only [gbinder_servicemanager_new_with_type, hbind, hn2]
    rw [hr]
    refine ⟨rfl, rfl, by simp, ?_, ?_⟩
    · simp [World.lookup, lookup_replace_self]
    · intro other hne
      cases ht : w.table with
      | none => simp [World.lookup, ht, g_hash_table_replace, g_hash_table_remove,
          g_hash_table_lookup, hne.symm]
      | some t => simp [World.lookup, ht, lookup_replace_other _ _ _ _ hne]

/-- Witness for C1 on an empty registry with the device "/dev/x". -/
theorem new_with_type_acquire_witness :
    (gbinder_servicemanager_new_with_type
      (some plain_class)
      (some "/dev/x") { table := none, heap := [] }).1 = some 0 :=
  ((new_with_type_acquire
      plain_class
      (some "/dev/x") { table := none, heap := [] } "/dev/x" rfl).2 rfl).1

theorem g_atomic_int_get_small (c : Nat) (h : c < 2 ^ 31) : g_atomic_int_get c = (c : Int) := by
  have h1 : c % 2 ^ 32 = c := Nat.mod_eq_of_lt (by omega)
  unfold g_atomic_int_get
  rw [h1, if_pos h]

theorem dispose_locked_heap (w : World) (p : Nat) :
    (gbinder_servicemanager_dispose_locked w p).heap = w.heap := by
  unfold gbinder_servicemanager_dispose_locked
  split
  · split
    · dsimp only
      split <;> rfl
    · rfl
  · rfl

theorem dispose_heap (w : World) (p : Nat) (self : GBinderServiceManager)
    (hself : w.heap[p]? = some self) :
    (gbinder_servicemanager_dispose w p).heap =
      w.heap.set p { self with handlers := [] } := by
  simp [gbinder_servicemanager_dispose, dispose_locked_heap, g_object_real_dispose,
    heap_update, hself]

/-- C2, as the code has it: the dispose protocol. With a reference count of at most one
the binding of the instance's device path is removed, every other binding stays, and the
table becomes absent exactly when the removal left it empty (an absent table stays
absent); with a reference count above one (and below 2^31, so that it reads as a positive
`gint`) the registry table is untouched. In both cases the chain-up to the parent class
follows: the signal handlers connected to the instance are dropped, the instance keeps
its reference count, device path and liveness, and no other object changes. -/
theorem dispose_protocol (w : World) (p : Nat) (self : GBinderServiceManager)
    (hself : w.heap[p]? = some self) :
    (self.ref_count ≤ 1 →
      (gbinder_servicemanager_dispose w p).lookup self.dev = none ∧
      (∀ other, other ≠ self.dev →
        (gbinder_servicemanager_dispose w p).lookup other = w.lookup other) ∧
      (w.table = none → (gbinder_servicemanager_dispose w p).table = none) ∧
      (∀ t, w.table = some t →
        (gbinder_servicemanager_dispose w p).table =
          if g_hash_table_remove t self.dev = [] then none
          else some (g_hash_table_remove t self.dev))) ∧
    (1 < self.ref_count → self.ref_count < 2 ^ 31 →
      (gbinder_servicemanager_dispose w p).table = w.table) ∧
    (gbinder_servicemanager_dispose w p).heap[p]? = some { self with handlers := [] } ∧
    (∀ q, q ≠ p → (gbinder_servicemanager_dispose w p).heap[q]? = w.heap[q]?) := by
  have htab : (gbinder_servicemanager_dispose w p).table =
      (gbinder_servicemanager_dispose_locked w p).table := rfl
  have hlook : ∀ k, (gbinder_servicemanager_dispose w p).lookup k =
      (gbinder_servicemanager_dispose_locked w p).lookup k := fun _ => rfl
  refine ⟨?_, ?_, ?_, ?_⟩
  · intro hle
    have hle2 : g_atomic_int_get self.ref_count ≤ 1 := by
      rw [g_atomic_int_get_small _ (by omega)]
      omega
    rw [htab, hlook]
    simp only [hlook]
    cases ht : w.table with
    | none =>
      have hd : gbinder_servicemanager_dispose_locked w p = w := by
        simp [gbinder_servicemanager_dispose_locked, hself, ht]
      rw [hd]
      simp [World.lookup, ht]
    | some t =>
      by_cases hempty : g_hash_table_remove t self.dev = []
      · have hd : gbinder_servicemanager_dispose_locked w p = { w with table := none } := by
          simp [gbinder_servicemanager_dispose_locked, hself, ht, hle2, g_hash_table_size,
            hempty]
        rw [hd]
        refine ⟨rfl, ?_, fun _ => rfl, ?_⟩
        · intro other hne
          have h1 := lookup_remove_other t self.dev other hne
          rw [hempty] at h1
          simp only [World.lookup, ht]
          rw [← h1]
          rfl
        · intro t2 ht2
          cases ht2
          simp [hempty]
      · have hd : gbinder_servicemanager_dispose_locked w p =
            { w with table := some (g_hash_table_remove t self.dev) } := by
          simp [gbinder_servicemanager_dispose_locked, hself, ht, hle2, g_hash_table_size,
            hempty]
        rw [hd]
        refine ⟨?_, ?_, (fun h => by cases h), ?_⟩
        · simp [World.lookup, lookup_remove_self]
        · intro other hne
          simp [World.lookup, ht, lookup_remove_other _ _ _ hne]
        · intro t2 ht2
          cases ht2
          simp [hempty]
  · intro hgt hlt
    have hnot : ¬ g_atomic_int_get self.ref_count ≤ 1 := by
      rw [g_atomic_int_get_small _ hlt]
      omega
    rw [htab]
    cases ht : w.table with
    | none => simp [gbinder_servicemanager_dispose_locked, hself, ht]
    | some t => simp [gbinder_servicemanager_dispose_locked, hself, ht, hnot]
  · rw [dispose_heap w p self hself]
    exact getElem?_set_of_some _ _ _ _ hself
  · intro q hq
    rw [dispose_heap w p self hself]
    simp [List.getElem?_set, hq.symm]

/-- Witness for C2: disposing the only instance, held once, empties the registry. -/
theorem dispose_protocol_witness :
    (gbinder_servicemanager_dispose
      { table := some [("/dev/x", 0)],
        heap := [{ ref_count := 1, dev := "/dev/x", finalized := false }] } 0).table = none :=
  ((dispose_protocol
      { table := some [("/dev/x", 0)],
        heap := [{ ref_count := 1, dev := "/dev/x", finalized := false }] } 0
      { ref_count := 1, dev := "/dev/x", finalized := false } rfl).1 (by decide)).2.2.2
    [("/dev/x", 0)] rfl

/-- C2 as stated fails: an instance with two references and one connected signal
handler, registered under "/dev/x". Dispose leaves the table and the count alone but the
instance loses its handler, so it is not left as it was. -/
theorem dispose_drops_handlers_of_revived :
    (gbinder_servicemanager_dispose
      { table := some [("/dev/x", 0)],
        heap := [{ ref_count := 2, dev := "/dev/x", finalized := false,
                   handlers := [{ sequential_number := 1, detail := some "k", func := 7,
                                  data := 0 }] }] } 0) =
      { table := some [("/dev/x", 0)],
        heap := [{ ref_count := 2, dev := "/dev/x", finalized := false, handlers := [] }] } ∧
    (gbinder_servicemanager_dispose
      { table := some [("/dev/x", 0)],
        heap := [{ ref_count := 2, dev := "/dev/x", finalized := false,
                   handlers := [{ sequential_number := 1, detail := some "k", func := 7,
                                  data := 0 }] }] } 0) ≠
      { table := some [("/dev/x", 0)],
        heap := [{ ref_count := 2, dev := "/dev/x", finalized := false,
                   handlers := [{ sequential_number := 1, detail := some "k", func := 7,
                                  data := 0 }] }] } := by
  decide

/-! ### Acquire and release in sequence -/

/-- C3: the schedule `revive_then_release` is enabled from the initial system and ends
with no reference outstanding, the object 0 finalized and the class table still binding
"/dev/x" to it; an acquire of "/dev/x" in that state returns the finalized object. -/
theorem revive_then_release_leaves_stale_entry :
    (Sys.run plain_class Sys.init revive_then_release).map
        (fun s => (s.world.lookup "/dev/x", s.world.finalized 0, s.held, s.disposing,
          s.finishing)) = some (some 0, true, [], [], []) ∧
    (Sys.run plain_class Sys.init (revive_then_release ++ [.acquire (some "/dev/x")])).map
        (fun s => (s.returned, s.world.finalized 0)) = some (some 0, true) := by
  decide

/-! ### The watch table -/

theorem lookup_set_watched_self (t : List GBinderServiceManagerWatch) (name : String)
    (value : Bool) :
    watch_table_lookup (watch_table_set_watched t name value) name =
      (watch_table_lookup t name).map (fun w => { w with watched := value }) := by
  induction t with
  | nil => rfl
  | cons w rest ih =>
    by_cases h : w.name = name
    · simp [watch_table_lookup, watch_table_set_watched, h]
    · simp [watch_table_lookup, watch_table_set_watched, h, ih]

theorem lookup_set_watched_other (t : List GBinderServiceManagerWatch) (name other : String)
    (value : Bool) (hne : other ≠ name) :
    watch_table_lookup (watch_table_set_watched t name value) other =
      watch_table_lookup t other := by
  induction t with
  | nil => rfl
  | cons w rest ih =>
    by_cases h : w.name = name
    · have h2 : w.name ≠ other := fun h3 => hne (h3 ▸ h)
      simp [watch_table_lookup, watch_table_set_watched, h, h2, hne.symm]
    · by_cases h2 : w.name = other
      · simp [watch_table_lookup, watch_table_set_watched, h, h2, hne]
      · simp [watch_table_lookup, watch_table_set_watched, h, h2, ih]

theorem lookup_snoc_of_none (t : List GBinderServiceManagerWatch)
    (w : GBinderServiceManagerWatch) (name : String)
    (h : watch_table_lookup t name = none) :
    watch_table_lookup (t ++ [w]) name = if w.name = name then some w else none := by
  induction t with
  | nil => rfl
  | cons x rest ih =>
    by_cases hx : x.name = name
    · simp [watch_table_lookup, hx] at h
    · simp only [watch_table_lookup, hx, if_false] at h
      simpa [watch_table_lookup, hx] using ih h

theorem lookup_snoc_of_some (t : List GBinderServiceManagerWatch)
    (w x : GBinderServiceManagerWatch) (name : String)
    (h : watch_table_lookup t name = some x) :
    watch_table_lookup (t ++ [w]) name = some x := by
  induction t with
  | nil => simp [watch_table_lookup] at h
  | cons y rest ih =>
    by_cases hy : y.name = name
    · simpa [watch_table_lookup, hy] using h
    · simp only [watch_table_lookup, hy, if_false] at h
      simpa [watch_table_lookup, hy] using ih h

theorem lookup_name (t : List GBinderServiceManagerWatch) (name : String)
    (w : GBinderServiceManagerWatch) (h : watch_table_lookup t name = some w) :
    w.name = name ∧ w ∈ t := by
  induction t with
  | nil => simp [watch_table_lookup] at h
  | cons y rest ih =>
    by_cases hy : y.name = name
    · simp only [watch_table_lookup, hy, if_true, Option.some.injEq] at h
      subst h
      exact ⟨hy, List.mem_cons_self _ _⟩
    · simp only [watch_table_lookup, hy, if_false] at h
      exact ⟨(ih h).1, List.mem_cons_of_mem _ (ih h).2⟩

/-! ### What a registration does -/

/-- The effect of a registration with a callback and a usable name, field by field. -/
theorem add_registration_handler_spec (klass : GBinderServiceManagerClass) (s : Instance)
    (name : Option String) (func data : Nat) (N : String)
    (hN : normalized_name klass name = some N) :
    (gbinder_servicemanager_add_registration_handler klass s name (some func) data).1 =
      s.g_handler_sequential_number ∧
    (gbinder_servicemanager_add_registration_handler klass s name (some func) data).2.g_handler_sequential_number =
      s.g_handler_sequential_number + 1 ∧
    (gbinder_servicemanager_add_registration_handler klass s name (some func) data).2.handlers =
      s.handlers ++ [{ sequential_number := s.g_handler_sequential_number,
                       detail := entry_quark s N, func := func, data := data }] ∧
    (gbinder_servicemanager_add_registration_handler klass s name (some func) data).2.calls =
      s.calls ++ (if watched_flag s N = some true then [] else [Call.watch N (klass.watch N)]) ∧
    watched_flag
      (gbinder_servicemanager_add_registration_handler klass s name (some func) data).2 N =
      some (if watched_flag s N = some true then true else klass.watch N) ∧
    entry_quark
      (gbinder_servicemanager_add_registration_handler klass s name (some func) data).2 N =
      entry_quark s N ∧
    (∀ other, other ≠ N →
      watch_table_lookup
        (gbinder_servicemanager_add_registration_handler klass s name (some func) data).2.watch_table
        other = watch_table_lookup s.watch_table other) := by
  cases hfound : watch_table_lookup s.watch_table N with
  | none =>
    have hl := lookup_snoc_of_none s.watch_table (gbinder_servicemanager_watch_new N) N hfound
    have hnm : (gbinder_servicemanager_watch_new N).name = N := rfl
    simp only [hnm, if_true] at hl
    have hr : gbinder_servicemanager_add_registration_handler klass s name (some func) data =
        g_signal_connect_closure_by_id
          { s with
            watch_table := watch_table_set_watched
              (s.watch_table ++ [gbinder_servicemanager_watch_new N]) N (klass.watch N)
            calls := s.calls ++ [Call.watch N (klass.watch N)] }
          (gbinder_servicemanager_watch_new N).quark func data := by
      simp [gbinder_servicemanager_add_registration_handler, hN, hfound,
        gbinder_servicemanager_watch_new]
    rw [hr]
    refine ⟨rfl, rfl, ?_, ?_, ?_, ?_, ?_⟩
    · simp [g_signal_connect_closure_by_id, entry_quark, hfound]
    · simp [g_signal_connect_closure_by_id, watched_flag, hfound]
    · simp [g_signal_connect_closure_by_id, watched_flag, hfound, lookup_set_watched_self, hl]
    · simp [g_signal_connect_closure_by_id, entry_quark, hfound, lookup_set_watched_self, hl]
    · intro other hne
      simp only [g_signal_connect_closure_by_id]
      rw [lookup_set_watched_other _ _ _ _ hne]
      cases ho : watch_table_lookup s.watch_table other with
      | none =>
        rw [lookup_snoc_of_none _ _ _ ho]
        simp [gbinder_servicemanager_watch_new, hne.symm]
      | some x => exact lookup_snoc_of_some _ _ _ _ ho
  | some w =>
    by_cases hw : w.watched = true
    · have hr : gbinder_servicemanager_add_registration_handler klass s name (some func) data =
          g_signal_connect_closure_by_id s w.quark func data := by
        simp [gbinder_servicemanager_add_registration_handler, hN, hfound, hw]
      rw [hr]
      refine ⟨rfl, rfl, ?_, ?_, ?_, ?_, ?_⟩
      · simp [g_signal_connect_closure_by_id, entry_quark, hfound]
      · simp [g_signal_connect_closure_by_id, watched_flag, hfound, hw]
      · simp [g_signal_connect_closure_by_id, watched_flag, hfound, hw]
      · simp [g_signal_connect_closure_by_id, entry_quark, hfound]
      · intro other _
        rfl
    · have hr : gbinder_servicemanager_add_registration_handler klass s name (some func) data =
          g_signal_connect_closure_by_id
            { s with
              watch_table := watch_table_set_watched s.watch_table N (klass.watch N)
              calls := s.calls ++ [Call.watch N (klass.watch N)] }
            w.quark func data := by
        simp [gbinder_servicemanager_add_registration_handler, hN, hfound, hw]
      rw [hr]
      refine ⟨rfl, rfl, ?_, ?_, ?_, ?_, ?_⟩
      · simp [g_signal_connect_closure_by_id, entry_quark, hfound]
      · simp [g_signal_connect_closure_by_id, watched_flag, hfound, hw]
      · simp [g_signal_connect_closure_by_id, watched_flag, hfound, hw,
          lookup_set_watched_self]
      · simp [g_signal_connect_closure_by_id, entry_quark, hfound, lookup_set_watched_self]
      · intro other hne
        simp only [g_signal_connect_closure_by_id]
        exact lookup_set_watched_other _ _ _ _ hne

theorem add_registration_handler_table (klass : GBinderServiceManagerClass) (s : Instance)
    (name : Option String) (func : Option Nat) (data : Nat) :
    (gbinder_servicemanager_add_registration_handler klass s name func data).2.watch_table =
      s.watch_table ∨
    ∃ N b,
      (gbinder_servicemanager_add_registration_handler klass s name func data).2.watch_table =
        watch_table_set_watched s.watch_table N b ∨
      (gbinder_servicemanager_add_registration_handler klass s name func data).2.watch_table =
        watch_table_set_watched (s.watch_table ++ [gbinder_servicemanager_watch_new N]) N b := by
  cases func with
  | none => exact Or.inl rfl
  | some f =>
    cases hN : normalized_name klass name with
    | none => left; simp [gbinder_servicemanager_add_registration_handler, hN]
    | some N =>
      cases hfound : watch_table_lookup s.watch_table N with
      | none =>
        right
        refine ⟨N, klass.watch N, Or.inr ?_⟩
        simp [gbinder_servicemanager_add_registration_handler, hN, hfound,
          gbinder_servicemanager_watch_new, g_signal_connect_closure_by_id]
      | some w =>
        by_cases hw : w.watched = true
        · left
          simp [gbinder_servicemanager_add_registration_handler, hN, hfound, hw,
            g_signal_connect_closure_by_id]
        · right
          refine ⟨N, klass.watch N, Or.inl ?_⟩
          simp [gbinder_servicemanager_add_registration_handler, hN, hfound, hw,
            g_signal_connect_closure_by_id]

/-! ### Invariants of reachable instances -/

theorem tableOk_set_watched (t : List GBinderServiceManagerWatch) (name : String) (b : Bool)
    (h : TableOk t) : TableOk (watch_table_set_watched t name b) := by
  induction t with
  | nil => exact h
  | cons w rest ih =>
    have hw := h w (List.mem_cons_self _ _)
    have hrest : TableOk rest := fun x hx => h x (List.mem_cons_of_mem _ hx)
    by_cases hn : w.name = name
    · simp only [watch_table_set_watched, hn, if_true]
      intro x hx
      rcases List.mem_cons.1 hx with rfl | hx
      · simpa [hn] using hw
      · exact hrest x hx
    · simp only [watch_table_set_watched, hn, if_false]
      intro x hx
      rcases List.mem_cons.1 hx with rfl | hx
      · exact hw
      · exact ih hrest x hx

theorem tableOk_snoc_new (t : List GBinderServiceManagerWatch) (name : String)
    (h : TableOk t) : TableOk (t ++ [gbinder_servicemanager_watch_new name]) := by
  intro x hx
  rcases List.mem_append.1 hx with hx | hx
  · exact h x hx
  · rw [List.mem_singleton.1 hx]
    rfl

theorem entry_quark_of_tableOk (s : Instance) (N : String) (h : TableOk s.watch_table) :
    entry_quark s N = g_quark_from_string (g_compute_checksum_for_string_md5 N) := by
  unfold entry_quark
  cases hf : watch_table_lookup s.watch_table N with
  | none => rfl
  | some w =>
    obtain ⟨hn, hm⟩ := lookup_name _ _ _ hf
    simpa [hn] using h w hm

theorem inv_add (klass : GBinderServiceManagerClass) (s : Instance) (name : Option String)
    (func : Option Nat) (data : Nat) (h : Inv s) :
    Inv (gbinder_servicemanager_add_registration_handler klass s name func data).2 := by
  have htable : TableOk
      (gbinder_servicemanager_add_registration_handler klass s name func data).2.watch_table := by
    rcases add_registration_handler_table klass s name func data with ht | ⟨N, b, ht | ht⟩
    · rw [ht]; exact h.table_ok
    · rw [ht]; exact tableOk_set_watched _ _ _ h.table_ok
    · rw [ht]; exact tableOk_set_watched _ _ _ (tableOk_snoc_new _ _ h.table_ok)
  cases func with
  | none => exact h
  | some f =>
    cases hN : normalized_name klass name with
    | none =>
      have hr : gbinder_servicemanager_add_registration_handler klass s name (some f) data =
          (0, s) := by
        simp [gbinder_servicemanager_add_registration_handler, hN]
      rw [hr]
      exact h
    | some N =>
      obtain ⟨_, h2, h3, _, _, _, _⟩ := add_registration_handler_spec klass s name f data N hN
      refine ⟨?_, ?_, ?_, htable⟩
      · rw [h2]; omega
      · intro x hx
        rw [h3] at hx
        rw [h2]
        rcases List.mem_append.1 hx with hx | hx
        · have := h.ids_lt x hx
          omega
        · rw [List.mem_singleton.1 hx]
          simp
      · intro x hx
        rw [h3] at hx
        rcases List.mem_append.1 hx with hx | hx
        · exact h.detail_some x hx
        · rw [List.mem_singleton.1 hx]
          simp [entry_quark_of_tableOk s N h.table_ok, g_quark_from_string]

theorem inv_remove (iter : GHashTableIter) (s : Instance) (id : Nat) (h : Inv s) :
    Inv (gbinder_servicemanager_remove_handler iter s id) := by
  unfold gbinder_servicemanager_remove_handler
  by_cases hid : id = 0
  · simpa [hid] using h
  · simp only [hid, if_false]
    split
    · refine ⟨h.seq_pos, ?_, ?_, tableOk_set_watched _ _ _ h.table_ok⟩
      · intro x hx
        exact h.ids_lt x (List.mem_filter.1 hx).1
      · intro x hx
        exact h.detail_some x (List.mem_filter.1 hx).1
    · refine ⟨h.seq_pos, ?_, ?_, h.table_ok⟩
      · intro x hx
        exact h.ids_lt x (List.mem_filter.1 hx).1
      · intro x hx
        exact h.detail_some x (List.mem_filter.1 hx).1

theorem reachable_inv (klass : GBinderServiceManagerClass) (s : Instance)
    (h : Reachable klass s) : Inv s := by
  induction h with
  | init seq hpos =>
    exact ⟨hpos, by simp [gbinder_servicemanager_init], by simp [gbinder_servicemanager_init],
      by simp [gbinder_servicemanager_init, TableOk]⟩
  | add s name func data _ ih => exact inv_add klass s name func data ih
  | remove s iter id _ ih => exact inv_remove iter s id ih
  | notify s name _ ih => exact ⟨ih.seq_pos, ih.ids_lt, ih.detail_some, ih.table_ok⟩
  | other_ids s n _ ih =>
    exact ⟨by have := ih.seq_pos; simp only; omega,
      fun x hx => by have := ih.ids_lt x hx; simp only; omega, ih.detail_some, ih.table_ok⟩

/-! ### Emission -/

theorem new_calls_of_append (s1 s2 : Instance) (l : List Call)
    (h : s2.calls = s1.calls ++ l) : new_calls s1 s2 = l := by
  simp [new_calls, h]

theorem new_calls_registered (klass : GBinderServiceManagerClass) (s : Instance)
    (raw : Option String) :
    new_calls s (gbinder_servicemanager_service_registered klass s raw) =
      g_signal_emit s.handlers (registered_detail klass s raw) raw :=
  new_calls_of_append _ _ _ rfl

theorem g_signal_emit_append (a b : List Handler) (d : GQuark) (n : Option String) :
    g_signal_emit (a ++ b) d n = g_signal_emit a d n ++ g_signal_emit b d n := by
  simp [g_signal_emit]

theorem handler_invocations_append (id : Nat) (a b : List Call) :
    handler_invocations id (a ++ b) = handler_invocations id a ++ handler_invocations id b := by
  simp [handler_invocations]

theorem handler_invocations_emit_other (id : Nat) (hs : List Handler) (d : GQuark)
    (n : Option String) (h : ∀ x ∈ hs, x.sequential_number ≠ id) :
    handler_invocations id (g_signal_emit hs d n) = [] := by
  induction hs with
  | nil => rfl
  | cons x rest ih =>
    have hx := h x (List.mem_cons_self _ _)
    have hrest := ih (fun y hy => h y (List.mem_cons_of_mem _ hy))
    have hcons : g_signal_emit (x :: rest) d n =
        g_signal_emit [x] d n ++ g_signal_emit rest d n :=
      g_signal_emit_append [x] rest d n
    rw [hcons, handler_invocations_append, hrest]
    by_cases hm : (decide (x.detail = none) || decide (x.detail = d)) = true
    · simp [g_signal_emit, hm, handler_invocations, hx]
    · simp [g_signal_emit, hm, handler_invocations]

theorem g_signal_emit_single (h : Handler) (d : GQuark) (n : Option String) :
    g_signal_emit [h] d n =
      if h.detail = none ∨ h.detail = d then
        [Call.handler h.sequential_number h.func h.data n]
      else [] := by
  by_cases hc : h.detail = none ∨ h.detail = d
  · have hb : (decide (h.detail = none) || decide (h.detail = d)) = true := by
      simpa using hc
    simp [g_signal_emit, List.filter_cons, hb, hc]
  · have hb : (decide (h.detail = none) || decide (h.detail = d)) = false := by
      simpa using hc
    simp [g_signal_emit, List.filter_cons, hb, hc]

theorem registered_detail_of_lookup (klass : GBinderServiceManagerClass) (s : Instance)
    (raw : Option String) (M : String) (hM : normalized_name klass raw = some M) :
    registered_detail klass s raw =
      match watch_table_lookup s.watch_table M with
      | some w => w.quark
      | none => none := by
  simp [registered_detail, hM]

/-- In an instance whose table is `TableOk` the emitted detail is 0 or the quark of the
checksum of the normalized name. -/
theorem registered_detail_cases (klass : GBinderServiceManagerClass) (s : Instance)
    (raw : Option String) (M : String) (hM : normalized_name klass raw = some M)
    (h : TableOk s.watch_table) :
    registered_detail klass s raw = none ∨
    registered_detail klass s raw =
      g_quark_from_string (g_compute_checksum_for_string_md5 M) := by
  rw [registered_detail_of_lookup klass s raw M hM]
  cases hf : watch_table_lookup s.watch_table M with
  | none => exact Or.inl rfl
  | some w =>
    obtain ⟨hn, hm⟩ := lookup_name _ _ _ hf
    right
    simpa [hn] using h w hm

/-! ### Registration and notification -/

/-- C6: when `check_name` classifies the name as invalid, the registration returns the id
0 and leaves the instance as it was: no handler attached, no watch entry created, no call
of `watch` recorded. -/
theorem add_registration_handler_invalid (klass : GBinderServiceManagerClass) (s : Instance)
    (name : Option String) (func : Option Nat) (data : Nat)
    (h : klass.check_name name = .NAME_INVALID) :
    gbinder_servicemanager_add_registration_handler klass s name func data = (0, s) := by
  cases func with
  | none => rfl
  | some f => simp [gbinder_servicemanager_add_registration_handler, normalized_name, h]

/-- Witness for C6: the empty name with a variant that rejects it. -/
theorem add_registration_handler_invalid_witness :
    gbinder_servicemanager_add_registration_handler strict_class
      (gbinder_servicemanager_init 1) (some "") (some 7) 0 =
      (0, gbinder_servicemanager_init 1) :=
  add_registration_handler_invalid strict_class (gbinder_servicemanager_init 1) (some "")
    (some 7) 0 rfl

/-- C7: for a reachable instance and a usable name whose entry is not watched, when the
variant's `watch` fails the registration still returns a non-zero id and attaches the
handler under it, the entry exists with its watched flag false, and the only call made is
the failed `watch`; a further registration for the same name calls `watch` again. In
any state a registration calls `watch` exactly when the entry is not marked watched. -/
theorem add_registration_handler_watch_failure (klass : GBinderServiceManagerClass)
    (s : Instance) (hs : Reachable klass s) (name : Option String) (func data : Nat)
    (N : String) (hN : normalized_name klass name = some N)
    (hunwatched : watched_flag s N ≠ some true) (hfail : klass.watch N = false) :
    (gbinder_servicemanager_add_registration_handler klass s name (some func) data).1 ≠ 0 ∧
    ({ sequential_number :=
         (gbinder_servicemanager_add_registration_handler klass s name (some func) data).1,
       detail := entry_quark s N, func := func, data := data } : Handler) ∈
      (gbinder_servicemanager_add_registration_handler klass s name (some func) data).2.handlers ∧
    watched_flag
      (gbinder_servicemanager_add_registration_handler klass s name (some func) data).2 N =
      some false ∧
    new_calls s
      (gbinder_servicemanager_add_registration_handler klass s name (some func) data).2 =
      [Call.watch N false] ∧
    (∀ (name2 : Option String) (func2 data2 : Nat), normalized_name klass name2 = some N →
      new_calls
        (gbinder_servicemanager_add_registration_handler klass s name (some func) data).2
        (gbinder_servicemanager_add_registration_handler klass
          (gbinder_servicemanager_add_registration_handler klass s name (some func) data).2
          name2 (some func2) data2).2 = [Call.watch N false]) ∧
    (∀ (s1 : Instance) (name1 : Option String) (func1 data1 : Nat) (N1 : String),
      normalized_name klass name1 = some N1 →
      new_calls s1
        (gbinder_servicemanager_add_registration_handler klass s1 name1 (some func1) data1).2 =
        if watched_flag s1 N1 = some true then [] else [Call.watch N1 (klass.watch N1)]) := by
  obtain ⟨h1, _, h3, h4, h5, _, _⟩ := add_registration_handler_spec klass s name func data N hN
  have hgen : ∀ (s1 : Instance) (name1 : Option String) (func1 data1 : Nat) (N1 : String),
      normalized_name klass name1 = some N1 →
      new_calls s1
        (gbinder_servicemanager_add_registration_handler klass s1 name1 (some func1) data1).2 =
        if watched_flag s1 N1 = some true then [] else [Call.watch N1 (klass.watch N1)] := by
    intro s1 name1 func1 data1 N1 hN1
    exact new_calls_of_append _ _ _
      (add_registration_handler_spec klass s1 name1 func1 data1 N1 hN1).2.2.2.1
  have hflag : watched_flag
      (gbinder_servicemanager_add_registration_handler klass s name (some func) data).2 N =
      some false := by
    rw [h5]
    simp [hunwatched, hfail]
  refine ⟨?_, ?_, hflag, ?_, ?_, hgen⟩
  · rw [h1]
    have := (reachable_inv klass s hs).seq_pos
    omega
  · rw [h3, h1]
    simp
  · rw [hgen s name func data N hN]
    simp [hunwatched, hfail]
  · intro name2 func2 data2 hN2
    rw [hgen _ name2 func2 data2 N hN2, hflag]
    simp [hfail]

/-- Witness for C7: a first registration with a variant whose `watch` always fails. -/
theorem add_registration_handler_watch_failure_witness :
    new_calls (gbinder_servicemanager_init 1)
      (gbinder_servicemanager_add_registration_handler
        { plain_class with watch := fun _ => false }
        (gbinder_servicemanager_init 1) (some "foo") (some 7) 0).2 =
      [Call.watch "foo" false] :=
  (add_registration_handler_watch_failure { plain_class with watch := fun _ => false }
    (gbinder_servicemanager_init 1) (Reachable.init 1 (by decide)) (some "foo") 7 0 "foo" rfl
    (by decide) rfl).2.2.2.1

/-- C4, as the code has it: after a registration for the name `n` returned a non-zero
id in a reachable instance, a notification whose raw name has the same normalized form
as `n` invokes that handler exactly once, with its callback and data and the raw name
as received; a notification whose raw name is unusable, or whose normalized form has no
watch entry or has an MD5 checksum different from that of the normalized `n`, does not
invoke it. -/
theorem registered_handler_dispatch (klass : GBinderServiceManagerClass) (s : Instance)
    (hs : Reachable klass s) (n : String) (func data : Nat) (raw : Option String)
    (hid : (gbinder_servicemanager_add_registration_handler klass s (some n) (some func)
      data).1 ≠ 0) :
    (normalized_name klass raw = normalized_name klass (some n) →
      handler_invocations
        (gbinder_servicemanager_add_registration_handler klass s (some n) (some func) data).1
        (new_calls
          (gbinder_servicemanager_add_registration_handler klass s (some n) (some func) data).2
          (gbinder_servicemanager_service_registered klass
            (gbinder_servicemanager_add_registration_handler klass s (some n) (some func)
              data).2 raw)) =
        [Call.handler
          (gbinder_servicemanager_add_registration_handler klass s (some n) (some func) data).1
          func data raw]) ∧
    (normalized_name klass raw = none →
      handler_invocations
        (gbinder_servicemanager_add_registration_handler klass s (some n) (some func) data).1
        (new_calls
          (gbinder_servicemanager_add_registration_handler klass s (some n) (some func) data).2
          (gbinder_servicemanager_service_registered klass
            (gbinder_servicemanager_add_registration_handler klass s (some n) (some func)
              data).2 raw)) = []) ∧
    (∀ N M, normalized_name klass (some n) = some N → normalized_name klass raw = some M →
      g_compute_checksum_for_string_md5 M ≠ g_compute_checksum_for_string_md5 N ∨
        watch_table_lookup
          (gbinder_servicemanager_add_registration_handler klass s (some n) (some func)
            data).2.watch_table M = none →
      handler_invocations
        (gbinder_servicemanager_add_registration_handler klass s (some n) (some func) data).1
        (new_calls
          (gbinder_servicemanager_add_registration_handler klass s (some n) (some func) data).2
          (gbinder_servicemanager_service_registered klass
            (gbinder_servicemanager_add_registration_handler klass s (some n) (some func)
              data).2 raw)) = []) := by
  have hinv := reachable_inv klass s hs
  cases hN : normalized_name klass (some n) with
  | none =>
    exfalso
    apply hid
    simp [gbinder_servicemanager_add_registration_handler, hN]
  | some N =>
    obtain ⟨h1, _, h3, _, h5, h6, _⟩ :=
      add_registration_handler_spec klass s (some n) func data N hN
    have hinv1 : Inv (gbinder_servicemanager_add_registration_handler klass s (some n)
        (some func) data).2 := inv_add klass s (some n) (some func) data hinv
    have hq : entry_quark s N = g_quark_from_string (g_compute_checksum_for_string_md5 N) :=
      entry_quark_of_tableOk s N hinv.table_ok
    have hold : ∀ x ∈ s.handlers, x.sequential_number ≠ s.g_handler_sequential_number := by
      intro x hx
      have := hinv.ids_lt x hx
      omega
    -- the invocations of the new handler for an emission with detail `d`
    have hemit : ∀ d : GQuark,
        handler_invocations s.g_handler_sequential_number
          (g_signal_emit
            (gbinder_servicemanager_add_registration_handler klass s (some n) (some func)
              data).2.handlers d raw) =
          if d = g_quark_from_string (g_compute_checksum_for_string_md5 N) then
            [Call.handler s.g_handler_sequential_number func data raw]
          else [] := by
      intro d
      rw [h3, g_signal_emit_append, handler_invocations_append,
        handler_invocations_emit_other _ _ _ _ hold, hq]
      rw [g_signal_emit_single]
      by_cases hd : d = g_quark_from_string (g_compute_checksum_for_string_md5 N)
      · simp [handler_invocations, hd]
      · have hd2 : ¬ g_quark_from_string (g_compute_checksum_for_string_md5 N) = d :=
          fun h => hd h.symm
        have hd3 : ¬ (g_quark_from_string (g_compute_checksum_for_string_md5 N) = none ∨
            g_quark_from_string (g_compute_checksum_for_string_md5 N) = d) := by
          rintro (h | h)
          · cases h
          · exact hd2 h
        simp only [hd3, hd, if_false]
        rfl
    rw [h1, new_calls_registered]
    refine ⟨?_, ?_, ?_⟩
    · intro hraw
      rw [hemit]
      have hd : registered_detail klass
          (gbinder_servicemanager_add_registration_handler klass s (some n) (some func) data).2
          raw = g_quark_from_string (g_compute_checksum_for_string_md5 N) := by
        rw [registered_detail_of_lookup klass _ raw N hraw]
        have h7 : entry_quark
            (gbinder_servicemanager_add_registration_handler klass s (some n) (some func)
              data).2 N = entry_quark s N := h6
        cases hf : watch_table_lookup
            (gbinder_servicemanager_add_registration_handler klass s (some n) (some func)
              data).2.watch_table N with
        | none => simp [watched_flag, hf] at h5
        | some w =>
          have h8 : w.quark = entry_quark s N := by
            rw [← h7]
            simp [entry_quark, hf]
          simp only [h8, hq]
      simp [hd]
    · intro hraw
      rw [hemit]
      have hd : registered_detail klass
          (gbinder_servicemanager_add_registration_handler klass s (some n) (some func) data).2
          raw = none := by
        simp [registered_detail, hraw]
      simp [hd, g_quark_from_string]
    · intro N2 M hN2 hM hor
      cases hN2
      rw [hemit]
      rcases hor with hne | hnone
      · rcases registered_detail_cases klass _ raw M hM hinv1.table_ok with hd | hd
        · simp [hd, g_quark_from_string]
        · simp [hd, g_quark_from_string, hne]
      · have hd : registered_detail klass
            (gbinder_servicemanager_add_registration_handler klass s (some n) (some func)
              data).2 raw = none := by
          rw [registered_detail_of_lookup klass _ raw M hM, hnone]
        simp [hd, g_quark_from_string]

/-- Witness for C4: a first registration for "foo" with the plain variant. -/
theorem registered_handler_dispatch_witness :
    handler_invocations 1
      (new_calls
        (gbinder_servicemanager_add_registration_handler plain_class
          (gbinder_servicemanager_init 1) (some "foo") (some 7) 0).2
        (gbinder_servicemanager_service_registered plain_class
          (gbinder_servicemanager_add_registration_handler plain_class
            (gbinder_servicemanager_init 1) (some "foo") (some 7) 0).2 (some "foo"))) =
      [Call.handler 1 7 0 (some "foo")] :=
  (registered_handler_dispatch plain_class (gbinder_servicemanager_init 1)
    (Reachable.init 1 (by decide)) "foo" 7 0 (some "foo") (by decide)).1 rfl

/-- C4 as stated fails: with the plain variant, register a handler for
`colliding_name_b` and then one for `colliding_name_a`, which returns the id 2. The
two names are accepted unchanged and differ, but have the same MD5 checksum, so a
notification for `colliding_name_b` invokes the handler 2. -/
theorem colliding_name_invokes_handler :
    normalized_name plain_class (some colliding_name_b) ≠
      normalized_name plain_class (some colliding_name_a) ∧
    (gbinder_servicemanager_add_registration_handler plain_class
      (gbinder_servicemanager_add_registration_handler plain_class
        (gbinder_servicemanager_init 1) (some colliding_name_b) (some 7) 0).2
      (some colliding_name_a) (some 8) 0).1 = 2 ∧
    handler_invocations 2
      (new_calls
        (gbinder_servicemanager_add_registration_handler plain_class
          (gbinder_servicemanager_add_registration_handler plain_class
            (gbinder_servicemanager_init 1) (some colliding_name_b) (some 7) 0).2
          (some colliding_name_a) (some 8) 0).2
        (gbinder_servicemanager_service_registered plain_class
          (gbinder_servicemanager_add_registration_handler plain_class
            (gbinder_servicemanager_add_registration_handler plain_class
              (gbinder_servicemanager_init 1) (some colliding_name_b) (some 7) 0).2
            (some colliding_name_a) (some 8) 0).2
          (some colliding_name_b))) =
      [Call.handler 2 8 0 (some colliding_name_b)] := by
  decide!

/-! ### Removing handlers -/

theorem pending_append (a b : List Handler) (d : GQuark) :
    g_signal_has_handler_pending (a ++ b) d =
      (g_signal_has_handler_pending a d || g_signal_has_handler_pending b d) := by
  simp [g_signal_has_handler_pending]

theorem pending_iff (hs : List Handler) (d : GQuark) :
    g_signal_has_handler_pending hs d = true ↔ ∃ h ∈ hs, h.detail = d := by
  simp [g_signal_has_handler_pending]

theorem disconnect_absent (hs : List Handler) (id : Nat)
    (h : ∀ x ∈ hs, x.sequential_number ≠ id) : g_signal_handler_disconnect hs id = hs := by
  unfold g_signal_handler_disconnect
  rw [List.filter_eq_self]
  intro x hx
  simpa using h x hx

theorem disconnect_append (a b : List Handler) (id : Nat) :
    g_signal_handler_disconnect (a ++ b) id =
      g_signal_handler_disconnect a id ++ g_signal_handler_disconnect b id := by
  simp [g_signal_handler_disconnect]

theorem loop_none (hs : List Handler) (t : List GBinderServiceManagerWatch)
    (h : ∀ e ∈ t, e.watched = true → g_signal_has_handler_pending hs e.quark = true) :
    remove_handler_loop hs t = none := by
  induction t with
  | nil => rfl
  | cons e rest ih =>
    have he := h e (List.mem_cons_self _ _)
    have hrest := ih (fun x hx => h x (List.mem_cons_of_mem _ hx))
    have hc : (e.watched && !g_signal_has_handler_pending hs e.quark) = false := by
      cases hw : e.watched with
      | false => rfl
      | true => simp [he hw]
    simp [remove_handler_loop, hc, hrest]

/-- The watch the loop stops at is an entry that is watched and has no pending handler. -/
theorem loop_some (hs : List Handler) (t : List GBinderServiceManagerWatch)
    (w : GBinderServiceManagerWatch) (h : remove_handler_loop hs t = some w) :
    w ∈ t ∧ w.watched = true ∧ g_signal_has_handler_pending hs w.quark = false := by
  induction t with
  | nil => simp [remove_handler_loop] at h
  | cons e rest ih =>
    by_cases hc : (e.watched && !g_signal_has_handler_pending hs e.quark) = true
    · simp only [remove_handler_loop, hc, if_true, Option.some.injEq] at h
      subst h
      refine ⟨List.mem_cons_self _ _, ?_⟩
      simpa using hc
    · have hc2 : (e.watched && !g_signal_has_handler_pending hs e.quark) = false := by
        simpa using hc
      simp only [remove_handler_loop, hc2] at h
      obtain ⟨h1, h2⟩ := ih h
      exact ⟨List.mem_cons_of_mem _ h1, h2⟩

/-- The loop stops somewhere as soon as some entry is watched without a pending handler. -/
theorem loop_found (hs : List Handler) (t : List GBinderServiceManagerWatch)
    (e : GBinderServiceManagerWatch) (he : e ∈ t) (hw : e.watched = true)
    (hp : g_signal_has_handler_pending hs e.quark = false) :
    ∃ w, remove_handler_loop hs t = some w := by
  cases h : remove_handler_loop hs t with
  | some w => exact ⟨w, rfl⟩
  | none =>
    exfalso
    induction t with
    | nil => simp at he
    | cons x rest ih =>
      by_cases hc : (x.watched && !g_signal_has_handler_pending hs x.quark) = true
      · simp [remove_handler_loop, hc] at h
      · have hc2 : (x.watched && !g_signal_has_handler_pending hs x.quark) = false := by
          simpa using hc
        simp only [remove_handler_loop, hc2] at h
        rcases List.mem_cons.1 he with rfl | he
        · simp [hw, hp] at hc2
        · exact ih he h

/-- The two outcomes of a removal with a non-zero id. -/
theorem remove_handler_cases (iter : GHashTableIter) (s : Instance) (id : Nat)
    (hid : id ≠ 0) :
    (remove_handler_loop (g_signal_handler_disconnect s.handlers id)
        (iter.order s.watch_table) = none ∧
      gbinder_servicemanager_remove_handler iter s id =
        { s with handlers := g_signal_handler_disconnect s.handlers id }) ∨
    (∃ w, remove_handler_loop (g_signal_handler_disconnect s.handlers id)
        (iter.order s.watch_table) = some w ∧
      gbinder_servicemanager_remove_handler iter s id =
        { s with
          handlers := g_signal_handler_disconnect s.handlers id
          watch_table := watch_table_set_watched s.watch_table w.name false
          calls := s.calls ++ [Call.unwatch w.name] }) := by
  cases h : remove_handler_loop (g_signal_handler_disconnect s.handlers id)
      (iter.order s.watch_table) with
  | none =>
    left
    exact ⟨rfl, by simp [gbinder_servicemanager_remove_handler, hid, h]⟩
  | some w =>
    right
    exact ⟨w, rfl, by simp [gbinder_servicemanager_remove_handler, hid, h]⟩

theorem remove_handler_keep (iter : GHashTableIter) (t : Instance) (id : Nat) (hid : id ≠ 0)
    (h : ∀ e ∈ t.watch_table, e.watched = true →
      g_signal_has_handler_pending (g_signal_handler_disconnect t.handlers id) e.quark = true) :
    gbinder_servicemanager_remove_handler iter t id =
      { t with handlers := g_signal_handler_disconnect t.handlers id } := by
  have hn : remove_handler_loop (g_signal_handler_disconnect t.handlers id)
      (iter.order t.watch_table) = none :=
    loop_none _ _ (fun e he => h e ((iter.perm _).mem_iff.1 he))
  simp [gbinder_servicemanager_remove_handler, hid, hn]

theorem remove_handler_unwatch (iter : GHashTableIter) (t : Instance) (id : Nat)
    (hid : id ≠ 0) (N : String) (w : GBinderServiceManagerWatch)
    (hl : watch_table_lookup t.watch_table N = some w) (hw : w.watched = true)
    (hp : g_signal_has_handler_pending (g_signal_handler_disconnect t.handlers id) w.quark =
      false)
    (hother : ∀ e ∈ t.watch_table, e.name ≠ N → e.watched = true →
      g_signal_has_handler_pending (g_signal_handler_disconnect t.handlers id) e.quark = true) :
    gbinder_servicemanager_remove_handler iter t id =
      { t with
        handlers := g_signal_handler_disconnect t.handlers id
        watch_table := watch_table_set_watched t.watch_table N false
        calls := t.calls ++ [Call.unwatch N] } := by
  obtain ⟨hwn, hwm⟩ := lookup_name _ _ _ hl
  obtain ⟨x, hx⟩ := loop_found (g_signal_handler_disconnect t.handlers id)
    (iter.order t.watch_table) w ((iter.perm _).mem_iff.2 hwm) hw hp
  obtain ⟨hxm, hxw, hxp⟩ := loop_some _ _ _ hx
  have hxn : x.name = N := by
    by_contra hne
    have := hother x ((iter.perm _).mem_iff.1 hxm) hne hxw
    rw [hxp] at this
    cases this
  simp [gbinder_servicemanager_remove_handler, hid, hx, hxn]

theorem mem_set_watched (t : List GBinderServiceManagerWatch) (N : String) (b : Bool)
    (e : GBinderServiceManagerWatch) (h : e ∈ watch_table_set_watched t N b) :
    e.name = N ∨ e ∈ t := by
  induction t with
  | nil => simp [watch_table_set_watched] at h
  | cons x rest ih =>
    by_cases hn : x.name = N
    · simp only [watch_table_set_watched, hn, if_true] at h
      rcases List.mem_cons.1 h with rfl | h
      · exact Or.inl rfl
      · exact Or.inr (List.mem_cons_of_mem _ h)
    · simp only [watch_table_set_watched, hn, if_false] at h
      rcases List.mem_cons.1 h with rfl | h
      · exact Or.inr (List.mem_cons_self _ _)
      · rcases ih h with h2 | h2
        · exact Or.inl h2
        · exact Or.inr (List.mem_cons_of_mem _ h2)

/-- A registration for the usable name `N` leaves every watch stored under another name
as it was. -/
theorem add_registration_handler_mem (klass : GBinderServiceManagerClass) (s : Instance)
    (name : Option String) (func data : Nat) (N : String)
    (hN : normalized_name klass name = some N) (e : GBinderServiceManagerWatch)
    (he : e ∈ (gbinder_servicemanager_add_registration_handler klass s name (some func)
      data).2.watch_table) :
    e.name = N ∨ e ∈ s.watch_table := by
  cases hfound : watch_table_lookup s.watch_table N with
  | none =>
    have hr : (gbinder_servicemanager_add_registration_handler klass s name (some func)
        data).2.watch_table = watch_table_set_watched
          (s.watch_table ++ [gbinder_servicemanager_watch_new N]) N (klass.watch N) := by
      simp [gbinder_servicemanager_add_registration_handler, hN, hfound,
        gbinder_servicemanager_watch_new, g_signal_connect_closure_by_id]
    rw [hr] at he
    rcases mem_set_watched _ _ _ _ he with h | h
    · exact Or.inl h
    · rcases List.mem_append.1 h with h | h
      · exact Or.inr h
      · rw [List.mem_singleton.1 h]
        exact Or.inl rfl
  | some w =>
    by_cases hw : w.watched = true
    · have hr : (gbinder_servicemanager_add_registration_handler klass s name (some func)
          data).2.watch_table = s.watch_table := by
        simp [gbinder_servicemanager_add_registration_handler, hN, hfound, hw,
          g_signal_connect_closure_by_id]
      rw [hr] at he
      exact Or.inr he
    · have hr : (gbinder_servicemanager_add_registration_handler klass s name (some func)
          data).2.watch_table = watch_table_set_watched s.watch_table N (klass.watch N) := by
        simp [gbinder_servicemanager_add_registration_handler, hN, hfound, hw,
          g_signal_connect_closure_by_id]
      rw [hr] at he
      exact mem_set_watched _ _ _ _ he

theorem new_calls_self_calls (s1 s2 : Instance) (h : s2.calls = s1.calls) :
    new_calls s1 s2 = [] := by
  simp [new_calls, h]

/-- Removing two handlers scoped to the key of the watched entry `N`, in an instance where
no other handler has that key and every other watched entry has a handler: the first
removal calls nothing and keeps the flag, the second calls `unwatch N` and clears it. -/
theorem remove_pair (iter : GHashTableIter) (S2 : Instance) (old : List Handler) (Ha Hb : Handler) (N : String)
    (w2 : GBinderServiceManagerWatch)
    (hdis1 : g_signal_handler_disconnect S2.handlers Ha.sequential_number = old ++ [Hb])
    (hdis2 : g_signal_handler_disconnect (old ++ [Hb]) Hb.sequential_number = old)
    (ha0 : Ha.sequential_number ≠ 0) (hb0 : Hb.sequential_number ≠ 0)
    (hl : watch_table_lookup S2.watch_table N = some w2) (hw : w2.watched = true)
    (hbq : Hb.detail = w2.quark)
    (hnamed : ∀ e ∈ S2.watch_table, e.name = N → e.quark = w2.quark)
    (hnone : g_signal_has_handler_pending old w2.quark = false)
    (hcov : ∀ e ∈ S2.watch_table, e.name ≠ N → e.watched = true →
      g_signal_has_handler_pending old e.quark = true) :
    new_calls S2 (gbinder_servicemanager_remove_handler iter S2 Ha.sequential_number) = [] ∧
    watched_flag (gbinder_servicemanager_remove_handler iter S2 Ha.sequential_number) N =
      some true ∧
    new_calls (gbinder_servicemanager_remove_handler iter S2 Ha.sequential_number)
      (gbinder_servicemanager_remove_handler iter
        (gbinder_servicemanager_remove_handler iter S2 Ha.sequential_number)
        Hb.sequential_number) = [Call.unwatch N] ∧
    watched_flag
      (gbinder_servicemanager_remove_handler iter
        (gbinder_servicemanager_remove_handler iter S2 Ha.sequential_number)
        Hb.sequential_number) N = some false := by
  have hpb : g_signal_has_handler_pending [Hb] w2.quark = true := by
    simp [g_signal_has_handler_pending, hbq]
  have h1 : gbinder_servicemanager_remove_handler iter S2 Ha.sequential_number =
      { S2 with handlers := old ++ [Hb] } := by
    rw [remove_handler_keep iter S2 _ ha0, hdis1]
    intro e he hwe
    rw [hdis1, pending_append]
    by_cases hn : e.name = N
    · rw [hnamed e he hn, hpb]
      simp
    · rw [hcov e he hn hwe]
      simp
  have h2 : gbinder_servicemanager_remove_handler iter { S2 with handlers := old ++ [Hb] }
      Hb.sequential_number =
      { S2 with
        handlers := old
        watch_table := watch_table_set_watched S2.watch_table N false
        calls := S2.calls ++ [Call.unwatch N] } := by
    rw [remove_handler_unwatch iter { S2 with handlers := old ++ [Hb] } _ hb0 N w2 hl hw]
    · simp only [hdis2]
    · simp only [hdis2]
      exact hnone
    · intro e he hn hwe
      simp only [hdis2]
      exact hcov e he hn hwe
  rw [h1, h2]
  refine ⟨new_calls_self_calls _ _ rfl, ?_, new_calls_of_append _ _ _ rfl, ?_⟩
  · simp [watched_flag, hl, hw]
  · simp [watched_flag, lookup_set_watched_self, hl]

/-- C5, as the code has it: in a reachable instance where no handler is attached under the
key of the name `N` and every watched entry has a handler (a new instance is one), when
the variant's `watch N` succeeds, and whatever the order in which the table is iterated:
registering two handlers for names normalized to `N` calls `watch` exactly once (and
nothing else); removing either of the two calls nothing and leaves the entry marked
watched; removing the other one then calls `unwatch N`, exactly once, and clears the
flag. -/
theorem two_handlers_one_watch (klass : GBinderServiceManagerClass) (s : Instance)
    (hs : Reachable klass s) (iter : GHashTableIter) (name1 name2 : Option String)
    (func1 data1 func2 data2 : Nat)
    (N : String)
    (hN1 : normalized_name klass name1 = some N) (hN2 : normalized_name klass name2 = some N)
    (hwatch : klass.watch N = true)
    (hnone : ∀ h ∈ s.handlers, h.detail ≠ entry_quark s N)
    (hcov : ∀ w ∈ s.watch_table, w.watched = true →
      g_signal_has_handler_pending s.handlers w.quark = true) :
    new_calls s (register_two klass s name1 name2 func1 data1 func2 data2).2.2 =
      [Call.watch N true] ∧
    ∀ a b : Nat,
      (a = (register_two klass s name1 name2 func1 data1 func2 data2).1 ∧
        b = (register_two klass s name1 name2 func1 data1 func2 data2).2.1) ∨
      (a = (register_two klass s name1 name2 func1 data1 func2 data2).2.1 ∧
        b = (register_two klass s name1 name2 func1 data1 func2 data2).1) →
      new_calls (register_two klass s name1 name2 func1 data1 func2 data2).2.2
        (gbinder_servicemanager_remove_handler iter
          (register_two klass s name1 name2 func1 data1 func2 data2).2.2 a) = [] ∧
      watched_flag
        (gbinder_servicemanager_remove_handler iter
          (register_two klass s name1 name2 func1 data1 func2 data2).2.2 a) N = some true ∧
      new_calls
        (gbinder_servicemanager_remove_handler iter
          (register_two klass s name1 name2 func1 data1 func2 data2).2.2 a)
        (gbinder_servicemanager_remove_handler iter
          (gbinder_servicemanager_remove_handler iter
            (register_two klass s name1 name2 func1 data1 func2 data2).2.2 a) b) =
        [Call.unwatch N] ∧
      watched_flag
        (gbinder_servicemanager_remove_handler iter
          (gbinder_servicemanager_remove_handler iter
            (register_two klass s name1 name2 func1 data1 func2 data2).2.2 a) b) N =
        some false := by
  have hinv := reachable_inv klass s hs
  have hq := entry_quark_of_tableOk s N hinv.table_ok
  -- the entry of `N` is not watched beforehand
  have hflag : watched_flag s N ≠ some true := by
    intro hf
    cases hl : watch_table_lookup s.watch_table N with
    | none => simp [watched_flag, hl] at hf
    | some w =>
      have hw : w.watched = true := by simpa [watched_flag, hl] using hf
      obtain ⟨_, hm⟩ := lookup_name _ _ _ hl
      obtain ⟨x, hx, hxd⟩ := (pending_iff _ _).1 (hcov w hm hw)
      apply hnone x hx
      simp [hxd, entry_quark, hl]
  obtain ⟨a1, a2, a3, a4, a5, a6, _⟩ :=
    add_registration_handler_spec klass s name1 func1 data1 N hN1
  obtain ⟨b1, _, b3, b4, b5, b6, _⟩ :=
    add_registration_handler_spec klass
      (gbinder_servicemanager_add_registration_handler klass s name1 (some func1) data1).2
      name2 func2 data2 N hN2
  have a5t : watched_flag
      (gbinder_servicemanager_add_registration_handler klass s name1 (some func1) data1).2 N =
      some true := by
    rw [a5]; simp [hflag, hwatch]
  rw [a5t] at b4 b5
  simp only [if_true, List.append_nil] at b4 b5
  rw [a2] at b1 b3
  rw [a3, a6] at b3
  have hinv2 : Inv (register_two klass s name1 name2 func1 data1 func2 data2).2.2 :=
    inv_add _ _ _ _ _ (inv_add _ _ _ _ _ hinv)
  -- abbreviations for the state after the two registrations
  have hS2h : (register_two klass s name1 name2 func1 data1 func2 data2).2.2.handlers =
      s.handlers ++
        [{ sequential_number := s.g_handler_sequential_number, detail := entry_quark s N,
           func := func1, data := data1 }] ++
        [{ sequential_number := s.g_handler_sequential_number + 1, detail := entry_quark s N,
           func := func2, data := data2 }] := b3
  have hid1 : (register_two klass s name1 name2 func1 data1 func2 data2).1 =
      s.g_handler_sequential_number := a1
  have hid2 : (register_two klass s name1 name2 func1 data1 func2 data2).2.1 =
      s.g_handler_sequential_number + 1 := b1
  have hflag2 : watched_flag (register_two klass s name1 name2 func1 data1 func2 data2).2.2 N =
      some true := b5
  have hq2 : entry_quark (register_two klass s name1 name2 func1 data1 func2 data2).2.2 N =
      entry_quark s N := by
    have : entry_quark (register_two klass s name1 name2 func1 data1 func2 data2).2.2 N =
        entry_quark (gbinder_servicemanager_add_registration_handler klass s name1
          (some func1) data1).2 N := b6
    rw [this, a6]
  have hmem : ∀ e ∈ (register_two klass s name1 name2 func1 data1 func2 data2).2.2.watch_table,
      e.name = N ∨ e ∈ s.watch_table := by
    intro e he
    rcases add_registration_handler_mem klass _ name2 func2 data2 N hN2 e he with h | h
    · exact Or.inl h
    · exact add_registration_handler_mem klass s name1 func1 data1 N hN1 e h
  constructor
  · apply new_calls_of_append
    have : (register_two klass s name1 name2 func1 data1 func2 data2).2.2.calls =
        (gbinder_servicemanager_add_registration_handler klass s name1 (some func1)
          data1).2.calls := b4
    rw [this, a4]
    simp [hflag, hwatch]
  · -- the watch stored under `N`
    cases hl : watch_table_lookup
        (register_two klass s name1 name2 func1 data1 func2 data2).2.2.watch_table N with
    | none => simp [watched_flag, hl] at hflag2
    | some w2 =>
      have hw2 : w2.watched = true := by simpa [watched_flag, hl] using hflag2
      have hwq : w2.quark = entry_quark s N := by
        rw [← hq2]; simp [entry_quark, hl]
      have hold : ∀ x ∈ s.handlers, x.sequential_number ≠ s.g_handler_sequential_number ∧
          x.sequential_number ≠ s.g_handler_sequential_number + 1 := by
        intro x hx
        have := hinv.ids_lt x hx
        omega
      have hpos := hinv.seq_pos
      have hnamed : ∀ e ∈ (register_two klass s name1 name2 func1 data1 func2
          data2).2.2.watch_table, e.name = N → e.quark = w2.quark := by
        intro e he hn
        rw [hwq, hq, hinv2.table_ok e he, hn]
      have hnone2 : g_signal_has_handler_pending s.handlers w2.quark = false := by
        cases hp : g_signal_has_handler_pending s.handlers w2.quark with
        | false => rfl
        | true =>
          obtain ⟨x, hx, hxd⟩ := (pending_iff _ _).1 hp
          exact absurd (hxd.trans hwq) (hnone x hx)
      have hcov2 : ∀ e ∈ (register_two klass s name1 name2 func1 data1 func2
          data2).2.2.watch_table, e.name ≠ N → e.watched = true →
          g_signal_has_handler_pending s.handlers e.quark = true := by
        intro e he hn hwe
        rcases hmem e he with h | h
        · exact absurd h hn
        · exact hcov e h hwe
      intro a b hab
      rcases hab with ⟨ha, hb⟩ | ⟨ha, hb⟩
      · rw [ha, hb, hid1, hid2]
        refine remove_pair iter _ s.handlers
          { sequential_number := s.g_handler_sequential_number, detail := entry_quark s N,
            func := func1, data := data1 }
          { sequential_number := s.g_handler_sequential_number + 1,
            detail := entry_quark s N, func := func2, data := data2 }
          N w2 ?_ ?_ (by simp only; omega) (by simp) hl hw2 hwq.symm hnamed hnone2 hcov2
        · rw [hS2h, disconnect_append, disconnect_append,
            disconnect_absent _ _ (fun x hx => (hold x hx).1)]
          simp [g_signal_handler_disconnect]
        · rw [disconnect_append, disconnect_absent _ _ (fun x hx => (hold x hx).2)]
          simp [g_signal_handler_disconnect]
      · rw [ha, hb, hid1, hid2]
        refine remove_pair iter _ s.handlers
          { sequential_number := s.g_handler_sequential_number + 1,
            detail := entry_quark s N, func := func2, data := data2 }
          { sequential_number := s.g_handler_sequential_number, detail := entry_quark s N,
            func := func1, data := data1 }
          N w2 ?_ ?_ (by simp) (by simp only; omega) hl hw2 hwq.symm hnamed hnone2 hcov2
        · rw [hS2h, disconnect_append, disconnect_append,
            disconnect_absent _ _ (fun x hx => (hold x hx).2)]
          simp [g_signal_handler_disconnect]
        · rw [disconnect_append, disconnect_absent _ _ (fun x hx => (hold x hx).1)]
          simp [g_signal_handler_disconnect]

/-- Witness for C5: two registrations for "foo" on a new instance, then both removals. -/
theorem two_handlers_one_watch_witness :
    new_calls (gbinder_servicemanager_init 1)
      (register_two plain_class (gbinder_servicemanager_init 1) (some "foo") (some "foo")
        7 0 8 0).2.2 = [Call.watch "foo" true] ∧
    new_calls
      (gbinder_servicemanager_remove_handler list_order
        (register_two plain_class (gbinder_servicemanager_init 1) (some "foo") (some "foo")
          7 0 8 0).2.2 1)
      (gbinder_servicemanager_remove_handler list_order
        (gbinder_servicemanager_remove_handler list_order
          (register_two plain_class (gbinder_servicemanager_init 1) (some "foo") (some "foo")
            7 0 8 0).2.2 1) 2) = [Call.unwatch "foo"] :=
  ⟨(two_handlers_one_watch plain_class (gbinder_servicemanager_init 1)
      (Reachable.init 1 (by decide)) list_order (some "foo") (some "foo") 7 0 8 0 "foo"
      rfl rfl rfl
      (by simp [gbinder_servicemanager_init]) (by simp [gbinder_servicemanager_init])).1,
   ((two_handlers_one_watch plain_class (gbinder_servicemanager_init 1)
      (Reachable.init 1 (by decide)) list_order (some "foo") (some "foo") 7 0 8 0 "foo"
      rfl rfl rfl
      (by simp [gbinder_servicemanager_init]) (by simp [gbinder_servicemanager_init])).2 1 2
      (Or.inl ⟨rfl, rfl⟩)).2.2.1⟩

/-- C5 as stated fails: in `foo_state` a handler is already attached for "foo" and the
entry is watched. With the plain variant, whose `watch` always succeeds, registering two
more handlers for "foo" (ids 2 and 3) calls `watch` not once but never, and removing the
two calls `unwatch` not once but never and leaves the flag set. The table has a single
entry, so the order of iteration plays no part. -/
theorem watched_name_not_watched_again :
    watched_flag foo_state "foo" = some true ∧
    (register_two plain_class foo_state (some "foo") (some "foo") 7 0 8 0).1 = 2 ∧
    (register_two plain_class foo_state (some "foo") (some "foo") 7 0 8 0).2.1 = 3 ∧
    new_calls foo_state
      (register_two plain_class foo_state (some "foo") (some "foo") 7 0 8 0).2.2 = [] ∧
    new_calls (register_two plain_class foo_state (some "foo") (some "foo") 7 0 8 0).2.2
      (gbinder_servicemanager_remove_handler list_order
        (gbinder_servicemanager_remove_handler list_order
          (register_two plain_class foo_state (some "foo") (some "foo") 7 0 8 0).2.2 2)
        3) = [] ∧
    watched_flag
      (gbinder_servicemanager_remove_handler list_order
        (gbinder_servicemanager_remove_handler list_order
          (register_two plain_class foo_state (some "foo") (some "foo") 7 0 8 0).2.2 2)
        3) "foo" = some true := by
  decide!

/-- The defect the condition on watched entries keeps out of C5. In `orphan_state` no
handler is attached but one of the two colliding names is still marked watched: the
second one when the table is iterated in list order, the first one in reverse order.
Registering two handlers for "foo" there (ids 3 and 4) and removing the handler 3 takes
the branch commented "This must be the one we have just removed" for that entry and
calls `unwatch` for it, although a handler for "foo" was removed. -/
theorem orphan_unwatched_on_first_removal :
    (orphan_state list_order).handlers = [] ∧
    watched_flag (orphan_state list_order) colliding_name_b = some true ∧
    new_calls
      (register_two plain_class (orphan_state list_order) (some "foo") (some "foo")
        7 0 8 0).2.2
      (gbinder_servicemanager_remove_handler list_order
        (register_two plain_class (orphan_state list_order) (some "foo") (some "foo")
          7 0 8 0).2.2 3) = [Call.unwatch colliding_name_b] ∧
    (orphan_state reverse_order).handlers = [] ∧
    watched_flag (orphan_state reverse_order) colliding_name_a = some true ∧
    new_calls
      (register_two plain_class (orphan_state reverse_order) (some "foo") (some "foo")
        7 0 8 0).2.2
      (gbinder_servicemanager_remove_handler reverse_order
        (register_two plain_class (orphan_state reverse_order) (some "foo") (some "foo")
          7 0 8 0).2.2 3) = [Call.unwatch colliding_name_a] := by
  decide!

/-- C10, as the code has it: when `check_name` classifies the raw name as invalid, the
signal is emitted with the detail 0 whatever the watch table holds, so exactly the
handlers connected without a detail are invoked, each once with the raw name; in a
reachable instance there is no such handler and nothing is invoked; and a registration
with the absent name, when it stays absent after `check_name`, returns 0 and changes
nothing. -/
theorem service_registered_invalid (klass : GBinderServiceManagerClass) (s : Instance)
    (raw : Option String) (h : klass.check_name raw = .NAME_INVALID) :
    registered_detail klass s raw = none ∧
    new_calls s (gbinder_servicemanager_service_registered klass s raw) =
      (s.handlers.filter (fun x => decide (x.detail = none))).map
        (fun x => Call.handler x.sequential_number x.func x.data raw) ∧
    (Reachable klass s →
      new_calls s (gbinder_servicemanager_service_registered klass s raw) = []) ∧
    (∀ (func : Option Nat) (data : Nat), normalized_name klass none = none →
      gbinder_servicemanager_add_registration_handler klass s none func data = (0, s)) := by
  have hd : registered_detail klass s raw = none := by
    simp [registered_detail, normalized_name, h]
  have hcalls : new_calls s (gbinder_servicemanager_service_registered klass s raw) =
      (s.handlers.filter (fun x => decide (x.detail = none))).map
        (fun x => Call.handler x.sequential_number x.func x.data raw) := by
    rw [new_calls_registered, hd]
    simp [g_signal_emit]
  refine ⟨hd, hcalls, ?_, ?_⟩
  · intro hs
    rw [hcalls]
    have hinv := reachable_inv klass s hs
    have : s.handlers.filter (fun x => decide (x.detail = none)) = [] := by
      rw [List.filter_eq_nil_iff]
      intro x hx
      simpa using hinv.detail_some x hx
    rw [this]
    rfl
  · intro func data hnone
    cases func with
    | none => rfl
    | some f => simp [gbinder_servicemanager_add_registration_handler, hnone]

/-- Witness for C10: the empty name with the strict variant, on a new instance. -/
theorem service_registered_invalid_witness :
    registered_detail strict_class (gbinder_servicemanager_init 1) (some "") = none :=
  (service_registered_invalid strict_class (gbinder_servicemanager_init 1) (some "") rfl).1

/-- C10 as stated fails: registering with the absent name yields no handler that an
unscoped event reaches. With the strict variant the registration returns 0 and attaches
nothing, and the event for the invalid name "" invokes nothing. With a variant that
reads the absent name as "*" the registration returns the id 1 and attaches a handler,
and the event for the invalid name "" does not invoke it. -/
theorem absent_name_handler_not_reached :
    gbinder_servicemanager_add_registration_handler strict_class
      (gbinder_servicemanager_init 1) none (some 7) 0 = (0, gbinder_servicemanager_init 1) ∧
    strict_class.check_name (some "") = .NAME_INVALID ∧
    new_calls (gbinder_servicemanager_init 1)
      (gbinder_servicemanager_service_registered strict_class
        (gbinder_servicemanager_init 1) (some "")) = [] ∧
    (gbinder_servicemanager_add_registration_handler wildcard_class
      (gbinder_servicemanager_init 1) none (some 7) 0).1 = 1 ∧
    (gbinder_servicemanager_add_registration_handler wildcard_class
      (gbinder_servicemanager_init 1) none (some 7) 0).2.handlers.map
        (fun x => (x.sequential_number, x.func)) = [(1, 7)] ∧
    wildcard_class.check_name (some "") = .NAME_INVALID ∧
    new_calls
      (gbinder_servicemanager_add_registration_handler wildcard_class
        (gbinder_servicemanager_init 1) none (some 7) 0).2
      (gbinder_servicemanager_service_registered wildcard_class
        (gbinder_servicemanager_add_registration_handler wildcard_class
          (gbinder_servicemanager_init 1) none (some 7) 0).2 (some "")) = [] := by
  decide!

/-! ### The asynchronous `get_service` request -/

/-- C9, as the code has it: the completion phase invokes the callback with the object
the execution phase stored and leaves the request untouched; the cleanup then releases
the instance reference, unrefs that same object, frees the copied name and frees the
record. For a completed request the calls are, in order: the variant's `get_service`,
the callback with its result, and these four releases. -/
theorem get_service_tx_cleanup (klass : GBinderServiceManagerClass)
    (data : GBinderServiceManagerGetServiceTxData) :
    gbinder_servicemanager_get_service_tx_free data =
      [TxCall.gbinder_servicemanager_unref data.sm,
       TxCall.gbinder_remote_object_unref data.obj,
       TxCall.g_free data.name, TxCall.g_slice_free] ∧
    get_service_tx_completed klass data =
      [TxCall.get_service data.sm data.name,
       TxCall.func data.func data.sm (klass.get_service data.name).1
         (klass.get_service data.name).2 data.user_data,
       TxCall.gbinder_servicemanager_unref data.sm,
       TxCall.gbinder_remote_object_unref (klass.get_service data.name).1,
       TxCall.g_free data.name, TxCall.g_slice_free] :=
  ⟨rfl, rfl⟩

/-- C9 as stated fails: for the request `get_service (sm 0, "foo", callback 7)` with a
variant that resolves every name to the object 5, the callback is invoked with the
object 5 and the cleanup that follows unrefs the object 5. -/
theorem completed_request_unrefs_object :
    (gbinder_servicemanager_get_service 0 (some "foo") (some 7) 0).map
      (fun r => get_service_tx_completed plain_class r.1) =
      some [TxCall.get_service 0 "foo", TxCall.func 7 0 (some 5) 0 0,
        TxCall.gbinder_servicemanager_unref 0, TxCall.gbinder_remote_object_unref (some 5),
        TxCall.g_free "foo", TxCall.g_slice_free] ∧
    TxCall.gbinder_remote_object_unref (some 5) ∈
      gbinder_servicemanager_get_service_tx_free
        (gbinder_servicemanager_get_service_tx_exec plain_class
          { sm := 0, func := 7, obj := none, status := -EFAULT, name := "foo",
            user_data := 0 }).1 := by
  decide

/-! ### Names and keys of the watch table -/

theorem watch_keys_set_watched (t : List GBinderServiceManagerWatch) (N : String) (b : Bool) :
    watch_keys (watch_table_set_watched t N b) = watch_keys t := by
  induction t with
  | nil => rfl
  | cons w rest ih =>
    by_cases hn : w.name = N
    · simp [watch_table_set_watched, hn, watch_keys]
    · simp only [watch_table_set_watched, hn, if_false]
      simp only [watch_keys, List.map_cons] at ih ⊢
      rw [ih]

theorem names_of_watch_keys (t : List GBinderServiceManagerWatch) :
    t.map (fun w => w.name) = (watch_keys t).map (fun p => p.1) := by
  simp [watch_keys]

theorem lookup_none_not_mem (t : List GBinderServiceManagerWatch) (N : String)
    (h : watch_table_lookup t N = none) : N ∉ t.map (fun w => w.name) := by
  induction t with
  | nil => simp
  | cons w rest ih =>
    by_cases hn : w.name = N
    · simp [watch_table_lookup, hn] at h
    · simp only [watch_table_lookup, hn, if_false] at h
      simp only [List.map_cons, List.mem_cons, not_or]
      exact ⟨fun h2 => hn h2.symm, ih h⟩

/-- The names and keys of the table after a call of the registration function: those
before, followed by the pair of a new watch when one was created. -/
theorem watch_keys_add (klass : GBinderServiceManagerClass) (s : Instance)
    (name : Option String) (func : Option Nat) (data : Nat) :
    watch_keys (gbinder_servicemanager_add_registration_handler klass s name func
      data).2.watch_table = watch_keys s.watch_table ∨
    ∃ N, watch_table_lookup s.watch_table N = none ∧
      watch_keys (gbinder_servicemanager_add_registration_handler klass s name func
        data).2.watch_table =
        watch_keys s.watch_table ++
          [(N, g_quark_from_string (g_compute_checksum_for_string_md5 N))] := by
  cases func with
  | none => exact Or.inl rfl
  | some f =>
    cases hN : normalized_name klass name with
    | none => left; simp [gbinder_servicemanager_add_registration_handler, hN]
    | some N =>
      cases hfound : watch_table_lookup s.watch_table N with
      | none =>
        right
        refine ⟨N, hfound, ?_⟩
        have hr : (gbinder_servicemanager_add_registration_handler klass s name (some f)
            data).2.watch_table = watch_table_set_watched
              (s.watch_table ++ [gbinder_servicemanager_watch_new N]) N (klass.watch N) := by
          simp [gbinder_servicemanager_add_registration_handler, hN, hfound,
            gbinder_servicemanager_watch_new, g_signal_connect_closure_by_id]
        rw [hr, watch_keys_set_watched]
        simp [watch_keys, gbinder_servicemanager_watch_new]
      | some w =>
        left
        by_cases hw : w.watched = true
        · have hr : (gbinder_servicemanager_add_registration_handler klass s name (some f)
              data).2.watch_table = s.watch_table := by
            simp [gbinder_servicemanager_add_registration_handler, hN, hfound, hw,
              g_signal_connect_closure_by_id]
          rw [hr]
        · have hr : (gbinder_servicemanager_add_registration_handler klass s name (some f)
              data).2.watch_table = watch_table_set_watched s.watch_table N (klass.watch N) := by
            simp [gbinder_servicemanager_add_registration_handler, hN, hfound, hw,
              g_signal_connect_closure_by_id]
          rw [hr, watch_keys_set_watched]

theorem watch_keys_remove (iter : GHashTableIter) (s : Instance) (id : Nat) :
    watch_keys (gbinder_servicemanager_remove_handler iter s id).watch_table =
      watch_keys s.watch_table := by
  by_cases hid : id = 0
  · simp [gbinder_servicemanager_remove_handler, hid]
  · rcases remove_handler_cases iter s id hid with ⟨_, hr⟩ | ⟨w, _, hr⟩
    · rw [hr]
    · rw [hr]
      exact watch_keys_set_watched _ _ _

theorem keysDistinct_of_keys_subset (t1 t2 : List GBinderServiceManagerWatch)
    (hsub : ∀ p ∈ watch_keys t1, p ∈ watch_keys t2) (h : KeysDistinct t2) :
    KeysDistinct t1 := by
  intro e1 he1 e2 he2 hq
  have m1 : (e1.name, e1.quark) ∈ watch_keys t2 :=
    hsub _ (List.mem_map.2 ⟨e1, he1, rfl⟩)
  have m2 : (e2.name, e2.quark) ∈ watch_keys t2 :=
    hsub _ (List.mem_map.2 ⟨e2, he2, rfl⟩)
  obtain ⟨x1, hx1, hx1e⟩ := List.mem_map.1 m1
  obtain ⟨x2, hx2, hx2e⟩ := List.mem_map.1 m2
  simp only [Prod.mk.injEq] at hx1e hx2e
  have := h x1 hx1 x2 hx2 (by rw [hx1e.2, hx2e.2, hq])
  rw [← hx1e.1, ← hx2e.1, this]

theorem add_registration_handler_handlers (klass : GBinderServiceManagerClass) (s : Instance)
    (name : Option String) (func : Option Nat) (data : Nat) :
    (gbinder_servicemanager_add_registration_handler klass s name func data).2.handlers =
      s.handlers ∨
    ∃ q f,
      (gbinder_servicemanager_add_registration_handler klass s name func data).2.handlers =
        s.handlers ++ [{ sequential_number := s.g_handler_sequential_number, detail := q,
                         func := f, data := data }] := by
  cases func with
  | none => exact Or.inl rfl
  | some f =>
    cases hN : normalized_name klass name with
    | none => left; simp [gbinder_servicemanager_add_registration_handler, hN]
    | some N =>
      right
      exact ⟨entry_quark s N, f,
        (add_registration_handler_spec klass s name f data N hN).2.2.1⟩

theorem inv2_add (klass : GBinderServiceManagerClass) (s : Instance) (name : Option String)
    (func : Option Nat) (data : Nat) (hinv : Inv s) (h : Inv2 s) :
    Inv2 (gbinder_servicemanager_add_registration_handler klass s name func data).2 := by
  refine ⟨?_, ?_, ?_⟩
  · rw [names_of_watch_keys]
    rcases watch_keys_add klass s name func data with hk | ⟨N, hnone, hk⟩
    · rw [hk, ← names_of_watch_keys]
      exact h.names_nodup
    · rw [hk, List.map_append, ← names_of_watch_keys]
      simp only [List.map_cons, List.map_nil]
      rw [List.nodup_append]
      refine ⟨h.names_nodup, List.nodup_singleton _, ?_⟩
      intro a ha hb
      rw [List.mem_singleton] at hb
      subst hb
      exact lookup_none_not_mem _ _ hnone ha
  · rcases add_registration_handler_handlers klass s name func data with hh | ⟨q, f, hh⟩
    · rw [hh]; exact h.ids_nodup
    · rw [hh, List.map_append]
      simp only [List.map_cons, List.map_nil]
      rw [List.nodup_append]
      refine ⟨h.ids_nodup, List.nodup_singleton _, ?_⟩
      intro a ha hb
      rw [List.mem_singleton] at hb
      subst hb
      obtain ⟨x, hx, hxe⟩ := List.mem_map.1 ha
      have := hinv.ids_lt x hx
      omega
  · intro x hx
    rcases add_registration_handler_handlers klass s name func data with hh | ⟨q, f, hh⟩
    · rw [hh] at hx; exact h.ids_pos x hx
    · rw [hh] at hx
      rcases List.mem_append.1 hx with hx | hx
      · exact h.ids_pos x hx
      · rw [List.mem_singleton.1 hx]
        exact hinv.seq_pos

theorem remove_handler_handlers (iter : GHashTableIter) (s : Instance) (id : Nat) :
    (gbinder_servicemanager_remove_handler iter s id).handlers =
      if id = 0 then s.handlers else g_signal_handler_disconnect s.handlers id := by
  by_cases hid : id = 0
  · simp [gbinder_servicemanager_remove_handler, hid]
  · rcases remove_handler_cases iter s id hid with ⟨_, hr⟩ | ⟨w, _, hr⟩
    · rw [hr]; simp [hid]
    · rw [hr]; simp [hid]

theorem inv2_remove (iter : GHashTableIter) (s : Instance) (id : Nat) (h : Inv2 s) :
    Inv2 (gbinder_servicemanager_remove_handler iter s id) := by
  have hsub : List.Sublist (gbinder_servicemanager_remove_handler iter s id).handlers
      s.handlers := by
    rw [remove_handler_handlers]
    by_cases hid : id = 0
    · simp [hid]
    · simp only [hid, if_false, g_signal_handler_disconnect]
      exact List.filter_sublist _
  refine ⟨?_, ?_, ?_⟩
  · rw [names_of_watch_keys, watch_keys_remove, ← names_of_watch_keys]
    exact h.names_nodup
  · exact List.Nodup.sublist (List.Sublist.map _ hsub) h.ids_nodup
  · intro x hx
    exact h.ids_pos x (hsub.subset hx)

theorem reachable_inv2 (klass : GBinderServiceManagerClass) (s : Instance)
    (h : Reachable klass s) : Inv2 s := by
  induction h with
  | init seq hpos =>
    exact ⟨by simp [gbinder_servicemanager_init], by simp [gbinder_servicemanager_init],
      by simp [gbinder_servicemanager_init]⟩
  | add s name func data hr ih => exact inv2_add klass s name func data (reachable_inv klass s hr) ih
  | remove s iter id _ ih => exact inv2_remove iter s id ih
  | notify s name _ ih => exact ⟨ih.names_nodup, ih.ids_nodup, ih.ids_pos⟩
  | other_ids s n _ ih => exact ⟨ih.names_nodup, ih.ids_nodup, ih.ids_pos⟩

/-! ### Every watched entry keeps a handler when keys are distinct -/

/-- With distinct keys and unique handler ids, the watched entries that lose their last
handler when the handler `id` is disconnected all have one name. -/
theorem single_uncovered (s : Instance) (id : Nat) (hinv2 : Inv2 s)
    (hkeys : KeysDistinct s.watch_table) (hcov : Covered s) :
    ∀ a ∈ s.watch_table, ∀ b ∈ s.watch_table,
      a.watched = true →
      g_signal_has_handler_pending (g_signal_handler_disconnect s.handlers id) a.quark =
        false →
      b.watched = true →
      g_signal_has_handler_pending (g_signal_handler_disconnect s.handlers id) b.quark =
        false →
      a.name = b.name := by
  have hremoved : ∀ e ∈ s.watch_table, e.watched = true →
      g_signal_has_handler_pending (g_signal_handler_disconnect s.handlers id) e.quark = false →
      ∃ x ∈ s.handlers, x.sequential_number = id ∧ x.detail = e.quark := by
    intro e he hwe hpe
    obtain ⟨x, hx, hxd⟩ := (pending_iff _ _).1 (hcov e he hwe)
    refine ⟨x, hx, ?_, hxd⟩
    by_contra hne
    have hx2 : x ∈ g_signal_handler_disconnect s.handlers id := by
      simp [g_signal_handler_disconnect, hx, hne]
    have := (pending_iff _ _).2 ⟨x, hx2, hxd⟩
    rw [hpe] at this
    cases this
  intro a ha b hb hwa hpa hwb hpb
  obtain ⟨x, hx, hxi, hxd⟩ := hremoved a ha hwa hpa
  obtain ⟨y, hy, hyi, hyd⟩ := hremoved b hb hwb hpb
  have hxy : x = y := List.inj_on_of_nodup_map hinv2.ids_nodup hx hy (hxi.trans hyi.symm)
  apply hkeys a ha b hb
  rw [← hxd, ← hyd, hxy]

/-- In a table with one watch per name, a watch that is still marked watched after the
flag of the name `N` was cleared is a watch of the table under another name. -/
theorem mem_set_watched_false (t : List GBinderServiceManagerWatch) (N : String)
    (hnodup : (t.map (fun w => w.name)).Nodup) (e : GBinderServiceManagerWatch)
    (he : e ∈ watch_table_set_watched t N false) (hw : e.watched = true) :
    e ∈ t ∧ e.name ≠ N := by
  induction t with
  | nil => simp [watch_table_set_watched] at he
  | cons x rest ih =>
    simp only [List.map_cons, List.nodup_cons] at hnodup
    obtain ⟨hx, hrest⟩ := hnodup
    by_cases hn : x.name = N
    · simp only [watch_table_set_watched, hn, if_true] at he
      rcases List.mem_cons.1 he with rfl | he
      · simp at hw
      · refine ⟨List.mem_cons_of_mem _ he, ?_⟩
        intro hen
        apply hx
        rw [hn, ← hen]
        exact List.mem_map.2 ⟨e, he, rfl⟩
    · simp only [watch_table_set_watched, hn, if_false] at he
      rcases List.mem_cons.1 he with rfl | he
      · exact ⟨List.mem_cons_self _ _, hn⟩
      · obtain ⟨h1, h2⟩ := ih hrest he
        exact ⟨List.mem_cons_of_mem _ h1, h2⟩

theorem covered_remove (iter : GHashTableIter) (s : Instance) (id : Nat) (hinv2 : Inv2 s)
    (hkeys : KeysDistinct s.watch_table) (hcov : Covered s) :
    Covered (gbinder_servicemanager_remove_handler iter s id) := by
  by_cases hid : id = 0
  · simpa [gbinder_servicemanager_remove_handler, hid] using hcov
  · rcases remove_handler_cases iter s id hid with ⟨hnone, hr⟩ | ⟨w, hsome, hr⟩
    · rw [hr]
      intro e he hwe
      cases hp : g_signal_has_handler_pending (g_signal_handler_disconnect s.handlers id)
          e.quark with
      | true => rfl
      | false =>
        obtain ⟨x, hx⟩ := loop_found _ (iter.order s.watch_table) e
          ((iter.perm _).mem_iff.2 he) hwe hp
        rw [hnone] at hx
        cases hx
    · rw [hr]
      obtain ⟨hwm, hww, hwp⟩ := loop_some _ _ _ hsome
      have hwm2 : w ∈ s.watch_table := (iter.perm _).mem_iff.1 hwm
      intro e he hwe
      obtain ⟨hem, hen⟩ := mem_set_watched_false _ _ hinv2.names_nodup e he hwe
      cases hp : g_signal_has_handler_pending (g_signal_handler_disconnect s.handlers id)
          e.quark with
      | true => rfl
      | false =>
        exact absurd (single_uncovered s id hinv2 hkeys hcov e hem w hwm2 hwe hp hww hwp) hen

theorem covered_add (klass : GBinderServiceManagerClass) (s : Instance) (name : Option String)
    (func : Option Nat) (data : Nat) (hinv : Inv s) (hcov : Covered s) :
    Covered (gbinder_servicemanager_add_registration_handler klass s name func data).2 := by
  cases func with
  | none => exact hcov
  | some f =>
    cases hN : normalized_name klass name with
    | none =>
      have hr : gbinder_servicemanager_add_registration_handler klass s name (some f) data =
          (0, s) := by
        simp [gbinder_servicemanager_add_registration_handler, hN]
      rw [hr]
      exact hcov
    | some N =>
      have hinv1 := inv_add klass s name (some f) data hinv
      have hh := (add_registration_handler_spec klass s name f data N hN).2.2.1
      intro e he hwe
      rw [hh, pending_append]
      rcases add_registration_handler_mem klass s name f data N hN e he with hn | hm
      · have hq : e.quark = entry_quark s N := by
          rw [entry_quark_of_tableOk s N hinv.table_ok, hinv1.table_ok e he, hn]
        simp [g_signal_has_handler_pending, hq]
      · rw [hcov e hm hwe]
        rfl

/-- In a reachable instance whose watches have distinct keys for distinct names, every
watch marked watched has a handler attached under its key. -/
theorem reachable_covered (klass : GBinderServiceManagerClass) (s : Instance)
    (h : Reachable klass s) : KeysDistinct s.watch_table → Covered s := by
  induction h with
  | init seq hpos =>
    intro _ w hw
    simp [gbinder_servicemanager_init] at hw
  | add s name func data hr ih =>
    intro hkeys
    have hkeys0 : KeysDistinct s.watch_table := by
      apply keysDistinct_of_keys_subset _ _ _ hkeys
      intro p hp
      rcases watch_keys_add klass s name func data with hk | ⟨N, _, hk⟩
      · rw [hk]; exact hp
      · rw [hk]; exact List.mem_append_left _ hp
    exact covered_add klass s name func data (reachable_inv klass s hr) (ih hkeys0)
  | remove s iter id hr ih =>
    intro hkeys
    have hkeys0 : KeysDistinct s.watch_table := by
      apply keysDistinct_of_keys_subset _ _ _ hkeys
      intro p hp
      rw [watch_keys_remove]
      exact hp
    exact covered_remove iter s id (reachable_inv2 klass s hr) hkeys0 (ih hkeys0)
  | notify s name _ ih =>
    intro hkeys
    exact ih hkeys
  | other_ids s n _ ih =>
    intro hkeys
    exact ih hkeys

/-! ### Removal only concerns the entry of the removed handler -/

/-- C11: in a reachable instance whose distinct entry names have distinct dispatch keys,
whatever the order in which the table is iterated, removing an attached handler `h`
scoped to the key of the entry of `A` disconnects `h` only and leaves the watch stored
under every other name as it was. When the entry of `A`
is watched and no other attached handler is scoped to its key, the one call made is
`unwatch A` and only the flag of `A` is cleared; otherwise no call is made and the table
is unchanged. Handlers attached to other entries do not enter the condition. -/
theorem remove_handler_own_entry (klass : GBinderServiceManagerClass) (s : Instance)
    (hs : Reachable klass s) (hkeys : KeysDistinct s.watch_table) (iter : GHashTableIter)
    (h : Handler) (hh : h ∈ s.handlers) (A : String) (w : GBinderServiceManagerWatch)
    (hw : watch_table_lookup s.watch_table A = some w) (hd : h.detail = w.quark) :
    (gbinder_servicemanager_remove_handler iter s h.sequential_number).handlers =
      g_signal_handler_disconnect s.handlers h.sequential_number ∧
    (∀ B, B ≠ A →
      watch_table_lookup
        (gbinder_servicemanager_remove_handler iter s h.sequential_number).watch_table B =
        watch_table_lookup s.watch_table B) ∧
    ((w.watched = true ∧
        ∀ x ∈ s.handlers, x.sequential_number ≠ h.sequential_number → x.detail ≠ w.quark) →
      new_calls s (gbinder_servicemanager_remove_handler iter s h.sequential_number) =
        [Call.unwatch A] ∧
      (gbinder_servicemanager_remove_handler iter s h.sequential_number).watch_table =
        watch_table_set_watched s.watch_table A false ∧
      watched_flag (gbinder_servicemanager_remove_handler iter s h.sequential_number) A =
        some false) ∧
    (¬ (w.watched = true ∧
        ∀ x ∈ s.handlers, x.sequential_number ≠ h.sequential_number → x.detail ≠ w.quark) →
      new_calls s (gbinder_servicemanager_remove_handler iter s h.sequential_number) = [] ∧
      (gbinder_servicemanager_remove_handler iter s h.sequential_number).watch_table =
        s.watch_table) := by
  have hinv2 := reachable_inv2 klass s hs
  have hcov := reachable_covered klass s hs hkeys
  have hid : h.sequential_number ≠ 0 := by
    have := hinv2.ids_pos h hh
    omega
  obtain ⟨hwn, hwm⟩ := lookup_name _ _ _ hw
  -- whether another handler remains under the key of `A`
  have hpend : g_signal_has_handler_pending
      (g_signal_handler_disconnect s.handlers h.sequential_number) w.quark = false ↔
      ∀ x ∈ s.handlers, x.sequential_number ≠ h.sequential_number → x.detail ≠ w.quark := by
    constructor
    · intro hp x hx hne hxd
      have hx2 : x ∈ g_signal_handler_disconnect s.handlers h.sequential_number := by
        simp [g_signal_handler_disconnect, hx, hne]
      have := (pending_iff _ _).2 ⟨x, hx2, hxd⟩
      rw [hp] at this
      cases this
    · intro hall
      cases hp : g_signal_has_handler_pending
          (g_signal_handler_disconnect s.handlers h.sequential_number) w.quark with
      | false => rfl
      | true =>
        obtain ⟨x, hx, hxd⟩ := (pending_iff _ _).1 hp
        have hx2 : x ∈ s.handlers ∧ x.sequential_number ≠ h.sequential_number := by
          simpa [g_signal_handler_disconnect] using hx
        exact absurd hxd (hall x hx2.1 hx2.2)
  -- the entries of other names keep a handler
  have hother : ∀ e ∈ s.watch_table, e.name ≠ A → e.watched = true →
      g_signal_has_handler_pending
        (g_signal_handler_disconnect s.handlers h.sequential_number) e.quark = true := by
    intro e he hne hwe
    obtain ⟨x, hx, hxd⟩ := (pending_iff _ _).1 (hcov e he hwe)
    have hxne : x.sequential_number ≠ h.sequential_number := by
      intro hxi
      have hxh : x = h := List.inj_on_of_nodup_map hinv2.ids_nodup hx hh hxi
      apply hne
      rw [← hwn]
      apply hkeys e he w hwm
      rw [← hxd, hxh, hd]
    have hx2 : x ∈ g_signal_handler_disconnect s.handlers h.sequential_number := by
      simp [g_signal_handler_disconnect, hx, hxne]
    exact (pending_iff _ _).2 ⟨x, hx2, hxd⟩
  by_cases hc : w.watched = true ∧
      ∀ x ∈ s.handlers, x.sequential_number ≠ h.sequential_number → x.detail ≠ w.quark
  · have hr := remove_handler_unwatch iter s _ hid A w hw hc.1 (hpend.2 hc.2) hother
    rw [hr]
    refine ⟨rfl, ?_, ?_, ?_⟩
    · intro B hB
      exact lookup_set_watched_other _ _ _ _ hB
    · intro _
      refine ⟨new_calls_of_append _ _ _ rfl, rfl, ?_⟩
      simp [watched_flag, lookup_set_watched_self, hw]
    · intro hn
      exact absurd hc hn
  · have hall : ∀ e ∈ s.watch_table, e.watched = true →
        g_signal_has_handler_pending
          (g_signal_handler_disconnect s.handlers h.sequential_number) e.quark = true := by
      intro e he hwe
      by_cases hne : e.name = A
      · have hew : e = w :=
          List.inj_on_of_nodup_map hinv2.names_nodup he hwm (hne.trans hwn.symm)
        subst hew
        cases hp : g_signal_has_handler_pending
            (g_signal_handler_disconnect s.handlers h.sequential_number) e.quark with
        | true => rfl
        | false => exact absurd ⟨hwe, hpend.1 hp⟩ hc
      · exact hother e he hne hwe
    have hr := remove_handler_keep iter s _ hid hall
    rw [hr]
    refine ⟨rfl, fun _ _ => rfl, ?_, ?_⟩
    · intro hn
      exact absurd hn hc
    · intro _
      exact ⟨new_calls_self_calls _ _ rfl, rfl⟩

/-- Witness for C11: in `foo_bar_state` the handler 1, registered for "foo", is removed;
"foo" is unwatched and the table then only differs in the flag of "foo". -/
theorem remove_handler_own_entry_witness :
    new_calls foo_bar_state (gbinder_servicemanager_remove_handler reverse_order foo_bar_state 1) =
      [Call.unwatch "foo"] ∧
    (gbinder_servicemanager_remove_handler reverse_order foo_bar_state 1).watch_table =
      watch_table_set_watched foo_bar_state.watch_table "foo" false ∧
    watched_flag (gbinder_servicemanager_remove_handler reverse_order foo_bar_state 1) "foo" = some false :=
  (remove_handler_own_entry plain_class foo_bar_state
    (Reachable.add _ _ _ _ (Reachable.add _ _ _ _ (Reachable.init 1 (by decide))))
    (by unfold KeysDistinct; decide!) reverse_order
    { sequential_number := 1,
      detail := g_quark_from_string (g_compute_checksum_for_string_md5 "foo"),
      func := 7, data := 0 }
    (by decide!) "foo"
    { name := "foo", detail := g_compute_checksum_for_string_md5 "foo",
      quark := g_quark_from_string (g_compute_checksum_for_string_md5 "foo"),
      watched := true }
    (by decide!) rfl).2.2.1 ⟨rfl, by decide!⟩

/-! ### Two names with the same dispatch key -/

/-- C12: let two distinct usable names `A` and `B` have the same computed dispatch key,
and let the variant's `watch` succeed for both. On a new instance, register a handler
for `A`, then one for `B`: both entries exist and are marked watched. Whatever the order
in which the table is iterated, one of the two names, `own`, and the other one, `other`,
are such that removing first the handler registered for `other` and then the handler
registered for `own` goes as follows. The first removal calls nothing and leaves the
handler of `own` attached under the key of the entry of `own`, both entries still
watched. The second removal, of that handler, calls `unwatch other`, clears the flag of
`other` and leaves the entry of `own` marked watched with no handler attached. -/
theorem collision_unwatches_other (klass : GBinderServiceManagerClass) (seq : Nat)
    (hseq : 0 < seq) (nameA nameB : Option String) (A B : String)
    (funcA dataA funcB dataB : Nat)
    (hA : normalized_name klass nameA = some A) (hB : normalized_name klass nameB = some B)
    (hne : A ≠ B)
    (hkey : (gbinder_servicemanager_watch_new A).quark =
      (gbinder_servicemanager_watch_new B).quark)
    (hwA : klass.watch A = true) (hwB : klass.watch B = true) (iter : GHashTableIter) :
    watched_flag (register_two klass (gbinder_servicemanager_init seq) nameA nameB
      funcA dataA funcB dataB).2.2 A = some true ∧
    watched_flag (register_two klass (gbinder_servicemanager_init seq) nameA nameB
      funcA dataA funcB dataB).2.2 B = some true ∧
    ∃ (own other : String) (idOwn idOther funcOwn dataOwn : Nat),
      ((own = A ∧ other = B ∧ funcOwn = funcA ∧ dataOwn = dataA ∧
          idOwn = (register_two klass (gbinder_servicemanager_init seq) nameA nameB
            funcA dataA funcB dataB).1 ∧
          idOther = (register_two klass (gbinder_servicemanager_init seq) nameA nameB
            funcA dataA funcB dataB).2.1) ∨
        (own = B ∧ other = A ∧ funcOwn = funcB ∧ dataOwn = dataB ∧
          idOwn = (register_two klass (gbinder_servicemanager_init seq) nameA nameB
            funcA dataA funcB dataB).2.1 ∧
          idOther = (register_two klass (gbinder_servicemanager_init seq) nameA nameB
            funcA dataA funcB dataB).1)) ∧
      new_calls
        (register_two klass (gbinder_servicemanager_init seq) nameA nameB
          funcA dataA funcB dataB).2.2
        (remove_two iter (register_two klass (gbinder_servicemanager_init seq) nameA nameB
          funcA dataA funcB dataB).2.2 idOther idOwn).1 = [] ∧
      (remove_two iter (register_two klass (gbinder_servicemanager_init seq) nameA nameB
        funcA dataA funcB dataB).2.2 idOther idOwn).1.handlers =
        [{ sequential_number := idOwn,
           detail := entry_quark (register_two klass (gbinder_servicemanager_init seq)
             nameA nameB funcA dataA funcB dataB).2.2 own,
           func := funcOwn, data := dataOwn }] ∧
      watched_flag (remove_two iter (register_two klass (gbinder_servicemanager_init seq)
        nameA nameB funcA dataA funcB dataB).2.2 idOther idOwn).1 other = some true ∧
      watched_flag (remove_two iter (register_two klass (gbinder_servicemanager_init seq)
        nameA nameB funcA dataA funcB dataB).2.2 idOther idOwn).1 own = some true ∧
      new_calls
        (remove_two iter (register_two klass (gbinder_servicemanager_init seq) nameA nameB
          funcA dataA funcB dataB).2.2 idOther idOwn).1
        (remove_two iter (register_two klass (gbinder_servicemanager_init seq) nameA nameB
          funcA dataA funcB dataB).2.2 idOther idOwn).2 = [Call.unwatch other] ∧
      watched_flag (remove_two iter (register_two klass (gbinder_servicemanager_init seq)
        nameA nameB funcA dataA funcB dataB).2.2 idOther idOwn).2 other = some false ∧
      watched_flag (remove_two iter (register_two klass (gbinder_servicemanager_init seq)
        nameA nameB funcA dataA funcB dataB).2.2 idOther idOwn).2 own = some true ∧
      (remove_two iter (register_two klass (gbinder_servicemanager_init seq) nameA nameB
        funcA dataA funcB dataB).2.2 idOther idOwn).2.handlers = [] := by
  have hmd5 : g_compute_checksum_for_string_md5 A = g_compute_checksum_for_string_md5 B := by
    simpa [gbinder_servicemanager_watch_new, g_quark_from_string] using hkey
  have hseq0 : seq ≠ 0 := by omega
  have hBA : ¬ B = A := fun h => hne h.symm
  -- the instance after the two registrations
  have hR : register_two klass (gbinder_servicemanager_init seq) nameA nameB
      funcA dataA funcB dataB =
      (seq, seq + 1,
        { watch_table :=
            [{ name := A, detail := g_compute_checksum_for_string_md5 A,
               quark := some (g_compute_checksum_for_string_md5 A), watched := true },
             { name := B, detail := g_compute_checksum_for_string_md5 B,
               quark := some (g_compute_checksum_for_string_md5 B), watched := true }]
          handlers :=
            [{ sequential_number := seq, detail := some (g_compute_checksum_for_string_md5 A),
               func := funcA, data := dataA },
             { sequential_number := seq + 1,
               detail := some (g_compute_checksum_for_string_md5 B),
               func := funcB, data := dataB }]
          g_handler_sequential_number := seq + 1 + 1
          calls := [Call.watch A true, Call.watch B true] }) := by
    simp [register_two, gbinder_servicemanager_add_registration_handler, hA, hB,
      gbinder_servicemanager_init, watch_table_lookup, gbinder_servicemanager_watch_new,
      watch_table_set_watched, hwA, hwB, g_signal_connect_closure_by_id,
      g_quark_from_string, hne, hBA]
  rw [hR]
  refine ⟨by simp [watched_flag, watch_table_lookup], by simp [watched_flag,
    watch_table_lookup, hne, hBA], ?_⟩
  -- with one handler left, both entries still have a pending handler
  have hkeep : ∀ (H : Handler), H.detail = some (g_compute_checksum_for_string_md5 B) →
      remove_handler_loop [H]
        (iter.order
          [{ name := A, detail := g_compute_checksum_for_string_md5 A,
             quark := some (g_compute_checksum_for_string_md5 A), watched := true },
           { name := B, detail := g_compute_checksum_for_string_md5 B,
             quark := some (g_compute_checksum_for_string_md5 B), watched := true }]) =
        none := by
    intro H hH
    apply loop_none
    intro e he _
    have he2 := (iter.perm _).mem_iff.1 he
    simp only [List.mem_cons, List.mem_singleton, List.not_mem_nil, or_false] at he2
    rcases he2 with rfl | rfl
    · simp [g_signal_has_handler_pending, hH, hmd5]
    · simp [g_signal_has_handler_pending, hH]
  -- with no handler left, the loop stops at the first of the two in iteration order
  obtain ⟨w, hw⟩ := loop_found []
    (iter.order
      [{ name := A, detail := g_compute_checksum_for_string_md5 A,
         quark := some (g_compute_checksum_for_string_md5 A), watched := true },
       { name := B, detail := g_compute_checksum_for_string_md5 B,
         quark := some (g_compute_checksum_for_string_md5 B), watched := true }])
    { name := A, detail := g_compute_checksum_for_string_md5 A,
      quark := some (g_compute_checksum_for_string_md5 A), watched := true }
    ((iter.perm _).mem_iff.2 (List.mem_cons_self _ _)) rfl
    (by simp [g_signal_has_handler_pending])
  have hwm := (iter.perm _).mem_iff.1 (loop_some _ _ _ hw).1
  simp only [List.mem_cons, List.mem_singleton, List.not_mem_nil, or_false] at hwm
  rcases hwm with hwA2 | hwB2
  · -- the entry of `A` comes first: remove the handler of `A`, then the handler of `B`
    subst hwA2
    refine ⟨B, A, seq + 1, seq, funcB, dataB, Or.inr ⟨rfl, rfl, rfl, rfl, rfl, rfl⟩, ?_⟩
    have hk := hkeep ⟨seq + 1, some (g_compute_checksum_for_string_md5 B), funcB, dataB⟩ rfl
    simp [remove_two, gbinder_servicemanager_remove_handler, hseq0,
      g_signal_handler_disconnect, hk, hw, new_calls, watched_flag, watch_table_lookup,
      watch_table_set_watched, entry_quark, hne, hBA]
  · -- the entry of `B` comes first: remove the handler of `B`, then the handler of `A`
    subst hwB2
    refine ⟨A, B, seq, seq + 1, funcA, dataA, Or.inl ⟨rfl, rfl, rfl, rfl, rfl, rfl⟩, ?_⟩
    have hk := hkeep ⟨seq, some (g_compute_checksum_for_string_md5 A), funcA, dataA⟩
      (by simp [hmd5])
    simp [remove_two, gbinder_servicemanager_remove_handler, hseq0,
      g_signal_handler_disconnect, hk, hw, new_calls, watched_flag, watch_table_lookup,
      watch_table_set_watched, entry_quark, hne, hBA]

/-- Witness for C12: the plain variant and the two names `colliding_name_a` and
`colliding_name_b`, whose MD5 checksums are equal, on a new instance. Iterated in list
order, removing the handler of `colliding_name_a` (id 1) and then the handler of
`colliding_name_b` (id 2) ends with `unwatch colliding_name_a`; iterated in reverse order,
removing the handler 2 and then the handler 1 ends with `unwatch colliding_name_b`. -/
theorem collision_unwatches_other_witness :
    (watched_flag (register_two plain_class (gbinder_servicemanager_init 1)
        (some colliding_name_a) (some colliding_name_b) 5 0 6 0).2.2 colliding_name_a =
        some true ∧
      watched_flag (register_two plain_class (gbinder_servicemanager_init 1)
        (some colliding_name_a) (some colliding_name_b) 5 0 6 0).2.2 colliding_name_b =
        some true) ∧
    new_calls
      (remove_two list_order (register_two plain_class (gbinder_servicemanager_init 1)
        (some colliding_name_a) (some colliding_name_b) 5 0 6 0).2.2 1 2).1
      (remove_two list_order (register_two plain_class (gbinder_servicemanager_init 1)
        (some colliding_name_a) (some colliding_name_b) 5 0 6 0).2.2 1 2).2 =
      [Call.unwatch colliding_name_a] ∧
    new_calls
      (remove_two reverse_order (register_two plain_class (gbinder_servicemanager_init 1)
        (some colliding_name_a) (some colliding_name_b) 5 0 6 0).2.2 2 1).1
      (remove_two reverse_order (register_two plain_class (gbinder_servicemanager_init 1)
        (some colliding_name_a) (some colliding_name_b) 5 0 6 0).2.2 2 1).2 =
      [Call.unwatch colliding_name_b] :=
  ⟨⟨(collision_unwatches_other plain_class 1 (by decide) (some colliding_name_a)
      (some colliding_name_b) colliding_name_a colliding_name_b 5 0 6 0 rfl rfl (by decide)
      (by decide!) rfl rfl reverse_order).1,
    (collision_unwatches_other plain_class 1 (by decide) (some colliding_name_a)
      (some colliding_name_b) colliding_name_a colliding_name_b 5 0 6 0 rfl rfl (by decide)
      (by decide!) rfl rfl reverse_order).2.1⟩, by decide!, by decide!⟩

end GBinder
